import Mathlib

/-!
Shallow embedding of the Real-Time Transaction Risk Assessment Engine of the
payment-risk-scoring-system repository: the AML screening engine
(`src/aml_compliance.py`, class `AMLComplianceChecker`) and the velocity
monitor (`src/velocity_monitoring.py`, class `VelocityMonitor`), both with
their default configuration.

Modelling conventions: Python floats are embedded as rationals (`ℚ`); the
claims under study are about exact small-decimal arithmetic, not float
rounding.  Python strings are Lean `String`s, with substring containment and
ASCII upper-casing modelled explicitly.  Mutable per-customer state is
explicit state passing over an association list keyed by customer id.
Wall-clock time (`time.time()` / `datetime.now()`) is an explicit `now : ℚ`
(seconds) or `currentHour : ℤ` parameter.
-/

set_option allowUnsafeReducibility true
attribute [local semireducible] Rat.add Rat.mul Rat.sub Rat.div Rat.inv Rat.neg

namespace RiskEngine

/-- Python `needle in hay` on strings: `needle` occurs as a contiguous
substring of `hay`. -/
def containsSub (needle hay : String) : Bool :=
  hay.data.tails.any (fun t => needle.data.isPrefixOf t)

/-- Python `str.upper()` (ASCII as used by the engine's config strings). -/
def upperStr (s : String) : String :=
  ⟨s.data.map Char.toUpper⟩

/-- Python `min` on two numbers.  (Defined by `if` so that concrete values
compute; `rmin_eq` identifies it with Mathlib's `min`.) -/
def rmin (a b : ℚ) : ℚ := if a ≤ b then a else b

/-- Python `max` on two numbers. -/
def rmax (a b : ℚ) : ℚ := if b ≤ a then a else b

theorem rmin_eq (a b : ℚ) : rmin a b = min a b := (min_def a b).symm

theorem rmax_eq (a b : ℚ) : rmax a b = max a b := by
  rw [rmax, max_def]
  rcases le_or_lt a b with h | h
  · rcases eq_or_lt_of_le h with rfl | h2
    · simp
    · rw [if_neg (not_le.mpr h2), if_pos h]
  · rw [if_pos h.le, if_neg (not_le.mpr h)]

/-- A transaction record, with the defaults the Python code resolves via
`transaction_data.get(key, default)`: amount 0, hour 12, merchant category
"UNKNOWN", location "UNKNOWN", names "". -/
structure Transaction where
  transaction_amount : ℚ := 0
  transaction_hour : ℤ := 12
  merchant_category : String := "UNKNOWN"
  location : String := "UNKNOWN"
  customer_name : String := ""
  merchant_name : String := ""
  deriving DecidableEq, Repr

/-- A caller-supplied history entry: timestamp (seconds) and amount, as used
by `check_structuring` / `check_rapid_movement`. -/
structure HistEntry where
  timestamp : ℚ
  transaction_amount : ℚ
  deriving DecidableEq, Repr

/-! ### AML configuration defaults (`AMLComplianceChecker._load_config`) -/

def structuring_threshold : ℚ := 10000
def rapid_movement_threshold : ℚ := 50000
def structuring_window_hours : ℚ := 24
def rapid_movement_window_hours : ℚ := 6

def sanctions_list : List String :=
  ["SANCTIONED_ENTITY_1", "BLOCKED_COUNTRY_CODE"]

def high_risk_categories : List String :=
  ["CASH_ADVANCE", "GAMBLING", "CRYPTOCURRENCY", "MONEY_TRANSFER"]

def high_risk_locations : List String :=
  ["OFFSHORE", "SANCTIONS_COUNTRY", "HIGH_RISK_JURISDICTION"]

/-- `AMLComplianceChecker._is_within_time_window`: the timestamp is within
`window_hours` hours before `now` (future timestamps also pass, as in the
source's `(now - trans_time).total_seconds() / 3600 <= window_hours`). -/
def is_within_time_window (now ts window_hours : ℚ) : Bool :=
  (now - ts) / 3600 ≤ window_hours

/-- Result of one AML sub-check: a risk score and a flag list. -/
structure CheckResult where
  score : ℚ
  flags : List String
  deriving DecidableEq, Repr

/-- `AMLComplianceChecker.check_structuring`. -/
def check_structuring (now : ℚ) (td : Transaction) (history : List HistEntry) :
    CheckResult :=
  let amount := td.transaction_amount
  let nearCtr : Bool :=
    (8 : ℚ)/10 * structuring_threshold ≤ amount ∧ amount < structuring_threshold
  let s1 : ℚ := if nearCtr then 2/5 else 0
  let f1 : List String := if nearCtr then ["AMOUNT_NEAR_CTR_THRESHOLD"] else []
  let recent_amounts :=
    (history.filter
      (fun h => is_within_time_window now h.timestamp structuring_window_hours)).map
      (fun h => h.transaction_amount)
  let total_recent := recent_amounts.sum + amount
  let histHit : Bool :=
    ¬ history.isEmpty ∧ total_recent > structuring_threshold ∧ 3 ≤ recent_amounts.length
  let s2 : ℚ := if histHit then 3/5 else 0
  let f2 : List String := if histHit then ["MULTIPLE_TRANSACTIONS_ABOVE_THRESHOLD"] else []
  { score := rmin (s1 + s2) 1, flags := f1 ++ f2 }

/-- Python `amount % 1000 == 0` for an exact decimal amount: the amount is an
integer multiple of 1000. -/
def roundThousand (a : ℚ) : Bool :=
  a.den == 1 && a.num % 1000 == 0

/-- `AMLComplianceChecker.check_rapid_movement`. -/
def check_rapid_movement (now : ℚ) (td : Transaction) (history : List HistEntry) :
    CheckResult :=
  let amount := td.transaction_amount
  let large : Bool := amount > rapid_movement_threshold
  let s1 : ℚ := if large then 3/10 else 0
  let f1 : List String := if large then ["LARGE_SINGLE_TRANSACTION"] else []
  let roundAmt : Bool := roundThousand amount && amount ≥ 5000
  let s2 : ℚ := if roundAmt then 1/5 else 0
  let f2 : List String := if roundAmt then ["ROUND_AMOUNT_TRANSACTION"] else []
  let recent :=
    history.filter (fun h => is_within_time_window now h.timestamp rapid_movement_window_hours)
  let freqHit : Bool := ¬ history.isEmpty ∧ 5 ≤ recent.length
  let s3 : ℚ := if freqHit then 2/5 else 0
  let f3 : List String := if freqHit then ["HIGH_FREQUENCY_TRANSACTIONS"] else []
  { score := rmin (s1 + s2 + s3) 1, flags := f1 ++ f2 ++ f3 }

/-- Little-endian base-10 digits of a natural number (`[]` for 0), by fuel
recursion so that concrete values compute. -/
def digitsAux : ℕ → ℕ → List ℕ
  | _, 0 => []
  | 0, _ + 1 => []
  | fuel + 1, n + 1 => ((n + 1) % 10) :: digitsAux fuel ((n + 1) / 10)

def natDigits (n : ℕ) : List ℕ := digitsAux n n

/-- Digits (base 10) of `str(int(amount))` all identical with at least four
digits, e.g. 5555 or 7777 (`check_suspicious_patterns`'s repeated-digit test;
amounts in scope are non-negative, so `int()` truncation is the floor). -/
def repeatedDigitAmount (a : ℚ) : Bool :=
  let ds := natDigits (Int.toNat (Rat.floor a))
  4 ≤ ds.length && ds.all (fun d => d = ds.headI)

/-- `AMLComplianceChecker.check_suspicious_patterns`. -/
def check_suspicious_patterns (td : Transaction) : CheckResult :=
  let hour := td.transaction_hour
  let timing : Bool := hour < 6 ∨ hour > 22
  let s1 : ℚ := if timing then 1/5 else 0
  let f1 : List String := if timing then ["UNUSUAL_TIMING"] else []
  let cat : Bool := high_risk_categories.contains td.merchant_category
  let s2 : ℚ := if cat then 3/10 else 0
  let f2 : List String := if cat then ["HIGH_RISK_MERCHANT_CATEGORY"] else []
  let loc : Bool := high_risk_locations.any (fun l => containsSub l (upperStr td.location))
  let s3 : ℚ := if loc then 2/5 else 0
  let f3 : List String := if loc then ["HIGH_RISK_LOCATION"] else []
  let rep : Bool := repeatedDigitAmount td.transaction_amount
  let s4 : ℚ := if rep then 3/10 else 0
  let f4 : List String := if rep then ["REPEATED_DIGIT_AMOUNT"] else []
  { score := rmin (s1 + s2 + s3 + s4) 1, flags := f1 ++ f2 ++ f3 ++ f4 }

/-- `AMLComplianceChecker.check_sanctions_screening`. -/
def check_sanctions_screening (td : Transaction) : CheckResult :=
  let customer := upperStr td.customer_name
  let merchant := upperStr td.merchant_name
  let loc := upperStr td.location
  let nameHit : Bool :=
    sanctions_list.any (fun e => containsSub e customer || containsSub e merchant)
  let s1 : ℚ := if nameHit then 1 else 0
  let f1 : List String := if nameHit then ["SANCTIONS_MATCH"] else []
  let locHit : Bool := sanctions_list.any (fun e => containsSub e loc)
  let s2 : ℚ := if locHit then rmax s1 (4/5) else s1
  let f2 : List String := if locHit then ["SANCTIONS_LOCATION"] else []
  { score := s2, flags := f1 ++ f2 }

/-- Python `round(x, 4)` (exact on the engine's 3-decimal score grid, where
round-half-to-even and round-half-up agree). -/
def round4 (x : ℚ) : ℚ :=
  ((Rat.floor (x * 10000 + 1/2) : ℤ) : ℚ) / 10000

/-- The unrounded weighted overall AML risk
(`calculate_overall_aml_risk`, variable `overall_risk`). -/
def amlOverallRisk (now : ℚ) (td : Transaction)
    (transaction_history account_history : List HistEntry) : ℚ :=
  (check_structuring now td transaction_history).score * (2/10) +
  (check_rapid_movement now td account_history).score * (2/10) +
  (check_suspicious_patterns td).score * (35/100) +
  (check_sanctions_screening td).score * (25/100)

/-- AML risk level cut-points (`calculate_overall_aml_risk`). -/
def amlRiskLevel (overall : ℚ) : String :=
  if overall ≥ 6/10 then "HIGH"
  else if overall ≥ 35/100 then "MEDIUM"
  else if overall ≥ 2/10 then "LOW"
  else "MINIMAL"

/-- The report returned by `AMLComplianceChecker.calculate_overall_aml_risk`. -/
structure AmlResult where
  aml_overall_risk_score : ℚ
  aml_risk_level : String
  aml_flags : List String
  component_structuring : ℚ
  component_rapid_movement : ℚ
  component_suspicious_patterns : ℚ
  component_sanctions : ℚ
  requires_manual_review : Bool
  deriving DecidableEq, Repr

/-- `AMLComplianceChecker.calculate_overall_aml_risk`. -/
def calculate_overall_aml_risk (now : ℚ) (td : Transaction)
    (transaction_history account_history : List HistEntry) : AmlResult :=
  let structuring := check_structuring now td transaction_history
  let rapid := check_rapid_movement now td account_history
  let pattern := check_suspicious_patterns td
  let sanctions := check_sanctions_screening td
  let overall := amlOverallRisk now td transaction_history account_history
  let all_flags := structuring.flags ++ rapid.flags ++ pattern.flags ++ sanctions.flags
  { aml_overall_risk_score := round4 overall
    aml_risk_level := amlRiskLevel overall
    aml_flags := all_flags
    component_structuring := round4 structuring.score
    component_rapid_movement := round4 rapid.score
    component_suspicious_patterns := round4 pattern.score
    component_sanctions := round4 sanctions.score
    requires_manual_review := decide (overall ≥ 7/10 ∨ "SANCTIONS_MATCH" ∈ all_flags) }

/-! ### Velocity monitor (`src/velocity_monitoring.py`, class `VelocityMonitor`),
default configuration. -/

/-- Time windows (seconds): minute, hour, day, week
(`VelocityMonitor._load_config`, `time_windows`). -/
def minute_window : ℚ := 60
def hour_window : ℚ := 3600
def day_window : ℚ := 86400
def week_window : ℚ := 604800

/-- `max(self.time_windows.values())` with the default config. -/
def max_time_window : ℚ := 604800

def max_transactions_per_minute : ℚ := 10
def max_transactions_per_hour : ℚ := 100
def max_transactions_per_day : ℚ := 500
def max_amount_per_minute : ℚ := 50000
def max_amount_per_hour : ℚ := 200000
def max_amount_per_day : ℚ := 1000000

/-- Per-customer buffer: the three parallel deques of `transaction_buffer`. -/
structure Buffer where
  transactions : List Transaction
  amounts : List ℚ
  timestamps : List ℚ
  deriving DecidableEq, Repr

def Buffer.empty : Buffer := ⟨[], [], []⟩

/-- The `transaction_buffer` map, as an association list keyed by customer id. -/
def MonitorStore := List (String × Buffer)

instance : DecidableEq MonitorStore := by unfold MonitorStore; infer_instance

/-- The monitor's mutable state: the buffer map and `_last_cleanup`
(`_cleanup_interval` is the constant 300 s). -/
structure MonitorState where
  buffer : List (String × Buffer)
  last_cleanup : ℚ
  deriving DecidableEq

/-- `transaction_buffer[customer_id]` read (defaultdict: a missing key reads
as the empty buffer). -/
def getBuf (store : List (String × Buffer)) (cid : String) : Buffer :=
  (store.lookup cid).getD Buffer.empty

/-- Write-back of a customer's buffer (defaultdict: a missing key is created,
appended at the end of the association list). -/
def setBuf : List (String × Buffer) → String → Buffer → List (String × Buffer)
  | [], cid, b => [(cid, b)]
  | (k, v) :: rest, cid, b =>
    if k = cid then (cid, b) :: rest else (k, v) :: setBuf rest cid b

/-- The popleft loop of `_cleanup_old_transactions`: removes leading entries
of the three parallel deques while the oldest timestamp is before `cutoff`. -/
def dropOldAux (cutoff : ℚ) :
    List Transaction → List ℚ → List ℚ → List Transaction × List ℚ × List ℚ
  | txs, ams, [] => (txs, ams, [])
  | txs, ams, t :: rest =>
    if t < cutoff then dropOldAux cutoff txs.tail ams.tail rest
    else (txs, ams, t :: rest)

def dropOld (cutoff : ℚ) (b : Buffer) : Buffer :=
  let r := dropOldAux cutoff b.transactions b.amounts b.timestamps
  ⟨r.1, r.2.1, r.2.2⟩

/-- `VelocityMonitor._cleanup_old_transactions`: drop entries older than the
longest window and delete customers whose buffer became empty. -/
def cleanup_old_transactions (now : ℚ) (store : List (String × Buffer)) :
    List (String × Buffer) :=
  (store.map (fun kb => (kb.1, dropOld (now - max_time_window) kb.2))).filter
    (fun kb => ¬ kb.2.timestamps.isEmpty)

/-- `VelocityMonitor.record_transaction` (with the opportunistic cleanup of
its tail: cleanup fires when more than `_cleanup_interval = 300` s have
passed since `_last_cleanup`). -/
def record_transaction (now : ℚ) (cid : String) (td : Transaction)
    (st : MonitorState) : MonitorState :=
  let b := getBuf st.buffer cid
  let b' : Buffer :=
    ⟨b.transactions ++ [td], b.amounts ++ [td.transaction_amount], b.timestamps ++ [now]⟩
  let store' := setBuf st.buffer cid b'
  if now - st.last_cleanup > 300 then
    ⟨cleanup_old_transactions now store', now⟩
  else
    ⟨store', st.last_cleanup⟩

/-- Metrics of one time window (`calculate_velocity_metrics` body). -/
structure WindowMetrics where
  count : ℕ
  total_amount : ℚ
  avg_amount : ℚ
  max_amount : ℚ
  rate : ℚ
  deriving DecidableEq, Repr

/-- Python `max(list)` / `min(list)` of a nonempty list (0 as the unused
default). -/
def listMax (l : List ℚ) : ℚ :=
  match l with
  | [] => 0
  | a :: r => r.foldl rmax a

def listMin (l : List ℚ) : ℚ :=
  match l with
  | [] => 0
  | a :: r => r.foldl rmin a

/-- The pairs of a buffer that fall inside one time window
(`timestamp >= cutoff`). -/
def windowPairs (now window : ℚ) (pairs : List (ℚ × ℚ)) : List (ℚ × ℚ) :=
  pairs.filter (fun p => p.1 ≥ now - window)

/-- One window's metrics from the (timestamp, amount) pairs of a buffer. -/
def windowMetricsP (now window : ℚ) (pairs : List (ℚ × ℚ)) : WindowMetrics :=
  let wpairs := windowPairs now window pairs
  let wts := wpairs.map (fun p => p.1)
  let was := wpairs.map (fun p => p.2)
  { count := wpairs.length
    total_amount := was.sum
    avg_amount := if was.isEmpty then 0 else was.sum / was.length
    max_amount := if was.isEmpty then 0 else listMax was
    rate :=
      if wts.isEmpty then 0
      else
        let time_span := listMax wts - listMin wts
        if time_span > 0 then (wts.length : ℚ) / rmax time_span 1
        else (wts.length : ℚ) }

/-- The four-window metric record returned by `calculate_velocity_metrics`. -/
structure VelocityMetrics where
  minute : WindowMetrics
  hour : WindowMetrics
  day : WindowMetrics
  week : WindowMetrics
  deriving DecidableEq, Repr

/-- `VelocityMonitor._empty_velocity_metrics`. -/
def empty_velocity_metrics : VelocityMetrics :=
  let z : WindowMetrics := ⟨0, 0, 0, 0, 0⟩
  ⟨z, z, z, z⟩

/-- `calculate_velocity_metrics` applied to one customer's buffer. -/
def metricsOfBuffer (now : ℚ) (b : Buffer) : VelocityMetrics :=
  if b.timestamps.isEmpty then empty_velocity_metrics
  else
    let pairs := b.timestamps.zip b.amounts
    ⟨windowMetricsP now minute_window pairs,
     windowMetricsP now hour_window pairs,
     windowMetricsP now day_window pairs,
     windowMetricsP now week_window pairs⟩

/-- `VelocityMonitor.calculate_velocity_metrics` (`transaction_buffer.get`
does not create a missing key). -/
def calculate_velocity_metrics (now : ℚ) (store : List (String × Buffer))
    (cid : String) : VelocityMetrics :=
  metricsOfBuffer now (getBuf store cid)

/-- `VelocityMonitor._calculate_frequency_risk`. -/
def calculate_frequency_risk (m : VelocityMetrics) : ℚ :=
  let r0 : ℚ := 0
  let r1 :=
    if (m.minute.count : ℚ) > max_transactions_per_minute then
      rmax r0 (rmin ((m.minute.count : ℚ) / max_transactions_per_minute) 2 / 2)
    else r0
  let r2 :=
    if (m.hour.count : ℚ) > max_transactions_per_hour then
      rmax r1 (rmin ((m.hour.count : ℚ) / max_transactions_per_hour) 2 / 2)
    else r1
  let r3 :=
    if (m.day.count : ℚ) > max_transactions_per_day then
      rmax r2 (rmin ((m.day.count : ℚ) / max_transactions_per_day) 2 / 2)
    else r2
  rmin r3 1

/-- `VelocityMonitor._calculate_volume_risk`. -/
def calculate_volume_risk (m : VelocityMetrics) : ℚ :=
  let r0 : ℚ := 0
  let r1 :=
    if m.minute.total_amount > max_amount_per_minute then
      rmax r0 (rmin (m.minute.total_amount / max_amount_per_minute) 2 / 2)
    else r0
  let r2 :=
    if m.hour.total_amount > max_amount_per_hour then
      rmax r1 (rmin (m.hour.total_amount / max_amount_per_hour) 2 / 2)
    else r1
  let r3 :=
    if m.day.total_amount > max_amount_per_day then
      rmax r2 (rmin (m.day.total_amount / max_amount_per_day) 2 / 2)
    else r2
  rmin r3 1

/-- `VelocityMonitor._calculate_pattern_risk` (`datetime.now().hour` is the
explicit `currentHour` parameter). -/
def calculate_pattern_risk (currentHour : ℤ) (m : VelocityMetrics)
    (td : Transaction) : ℚ :=
  let mc : ℚ := (m.minute.count : ℚ)
  let hc : ℚ := (m.hour.count : ℚ)
  let s1 : ℚ := if mc > 0 ∧ hc > 0 ∧ mc / rmax (hc / 60) 1 > 5 then 3/10 else 0
  let s2 : ℚ := if (currentHour < 6 ∨ currentHour > 22) ∧ mc > 3 then 1/5 else 0
  let mavg := m.minute.avg_amount
  let havg := m.hour.avg_amount
  let ca := td.transaction_amount
  let s3 : ℚ := if mavg > 0 ∧ ca > mavg * 3 then 1/5 else 0
  let s4 : ℚ := if havg > 0 ∧ mavg > havg * 2 then 3/10 else 0
  rmin (s1 + s2 + s3 + s4) 1

/-- Velocity risk level cut-points (`assess_velocity_risk`, default
thresholds 0.8 / 0.5 / 0.3). -/
def velocityRiskLevel (overall : ℚ) : String :=
  if overall ≥ 8/10 then "HIGH"
  else if overall ≥ 5/10 then "MEDIUM"
  else if overall ≥ 3/10 then "LOW"
  else "MINIMAL"

/-- The record returned by `VelocityMonitor.assess_velocity_risk`. -/
structure VelocityResult where
  velocity_risk_score : ℚ
  velocity_risk_level : String
  velocity_metrics : VelocityMetrics
  component_frequency_risk : ℚ
  component_volume_risk : ℚ
  component_pattern_risk : ℚ
  requires_velocity_review : Bool
  deriving DecidableEq

/-- The unrounded overall velocity risk of `assess_velocity_risk`
(frequency×0.4 + volume×0.4 + pattern×0.2, default `risk_weights`). -/
def velocityOverallRisk (currentHour : ℤ) (m : VelocityMetrics)
    (td : Transaction) : ℚ :=
  calculate_frequency_risk m * (4/10) +
  calculate_volume_risk m * (4/10) +
  calculate_pattern_risk currentHour m td * (2/10)

/-- `VelocityMonitor.assess_velocity_risk`: records the transaction, then
scores the updated ledger; returns the result and the updated state. -/
def assess_velocity_risk (now : ℚ) (currentHour : ℤ) (cid : String)
    (td : Transaction) (st : MonitorState) : VelocityResult × MonitorState :=
  let st' := record_transaction now cid td st
  let m := calculate_velocity_metrics now st'.buffer cid
  let overall := velocityOverallRisk currentHour m td
  ({ velocity_risk_score := round4 overall
     velocity_risk_level := velocityRiskLevel overall
     velocity_metrics := m
     component_frequency_risk := round4 (calculate_frequency_risk m)
     component_volume_risk := round4 (calculate_volume_risk m)
     component_pattern_risk := round4 (calculate_pattern_risk currentHour m td)
     requires_velocity_review := decide (overall ≥ 7/10) }, st')

/-! ### RiskAggregator (spec §4.4 / §6 `combine`) -/

/-- The aggregate verdict (spec §3, `RiskAssessment`). -/
structure RiskAssessment where
  combinedScore : ℚ
  riskLevel : String
  isFraud : Bool
  deriving DecidableEq, Repr

/-- Modelled from the spec: the repository's source contains no
RiskAggregator / `combine` implementation (spec §4.4 and §6 describe it, but
no aggregation code exists under the source tree; only the two sub-engines
do).  Faithful to the spec's words: `combinedScore = baseFraud×0.5 +
amlScore×0.3 + velocityScore×0.2`; if either sub-engine reports
`requiresManualReview` or a HIGH risk level, the aggregate `riskLevel` is
forced to HIGH and `isFraud` is forced true, regardless of `combinedScore`.
The non-escalated risk-level cut-points are not fixed by the spec; the
usual 0.8 / 0.5 / 0.3 defaults are used, and no claim depends on them. -/
def combine (baseFraud : ℚ) (aml : AmlResult) (vel : VelocityResult) :
    RiskAssessment :=
  let combinedScore :=
    baseFraud * (5/10) + aml.aml_overall_risk_score * (3/10) +
      vel.velocity_risk_score * (2/10)
  let escalate : Bool :=
    aml.requires_manual_review || vel.requires_velocity_review ||
      aml.aml_risk_level == "HIGH" || vel.velocity_risk_level == "HIGH"
  { combinedScore := combinedScore
    riskLevel :=
      if escalate then "HIGH"
      else if combinedScore ≥ 8/10 then "HIGH"
      else if combinedScore ≥ 5/10 then "MEDIUM"
      else if combinedScore ≥ 3/10 then "LOW"
      else "MINIMAL"
    isFraud := escalate || decide (combinedScore ≥ 5/10) }

/-! ### General lemmas -/

theorem ratFloor_eq_floor (q : ℚ) : Rat.floor q = ⌊q⌋ := by
  rw [Rat.floor_def', Rat.floor_def]

theorem round4_eq (x : ℚ) : round4 x = ((⌊x * 10000 + 1/2⌋ : ℤ) : ℚ) / 10000 := by
  rw [round4, ratFloor_eq_floor]

theorem round4_nonneg {x : ℚ} (h : 0 ≤ x) : 0 ≤ round4 x := by
  rw [round4_eq]
  have : (0 : ℤ) ≤ ⌊x * 10000 + 1/2⌋ := Int.le_floor.mpr (by push_cast; linarith)
  positivity

theorem round4_le_one {x : ℚ} (h : x ≤ 1) : round4 x ≤ 1 := by
  rw [round4_eq]
  rw [div_le_one (by norm_num)]
  have h2 : ⌊x * 10000 + 1/2⌋ ≤ ⌊(20001 : ℚ)/2⌋ := Int.floor_le_floor (by linarith)
  have h3 : ⌊(20001 : ℚ)/2⌋ = 10000 := by
    rw [← ratFloor_eq_floor]; decide
  rw [h3] at h2
  exact_mod_cast h2

theorem ite_nonneg {c : Prop} [Decidable c] {a b : ℚ} (ha : 0 ≤ a) (hb : 0 ≤ b) :
    0 ≤ if c then a else b := by
  split <;> assumption

/-- The common guarded window contribution of `_calculate_frequency_risk` and
`_calculate_volume_risk`: `min(value/threshold, 2)/2` when the value strictly
exceeds the threshold, else nothing. -/
def windowExcess (t thr : ℚ) : ℚ :=
  if t > thr then rmin (t / thr) 2 / 2 else 0

theorem windowExcess_nonneg {t thr : ℚ} (h : 0 < thr) : 0 ≤ windowExcess t thr := by
  rw [windowExcess]
  split
  · next hgt =>
    have h0 : (0:ℚ) ≤ t / thr := div_nonneg (le_of_lt (lt_trans h hgt)) h.le
    rw [rmin_eq]
    have h1 : (0:ℚ) ≤ min (t / thr) 2 := le_min h0 (by norm_num)
    linarith
  · exact le_rfl

theorem rminHalf_nonneg {x : ℚ} (hx : 0 ≤ x) : 0 ≤ rmin x 2 / 2 := by
  rw [rmin_eq]
  have h1 : (0:ℚ) ≤ min x 2 := le_min hx (by norm_num)
  linarith

theorem first_step (c : Prop) [Decidable c] (g : ℚ) (hg : 0 ≤ g) :
    (if c then rmax 0 g else 0) = (if c then g else 0) := by
  split
  · rw [rmax_eq, max_eq_right hg]
  · rfl

theorem ite_step (c : Prop) [Decidable c] (r g : ℚ) (hr : 0 ≤ r) :
    (if c then rmax r g else r) = rmax r (if c then g else 0) := by
  split
  · rfl
  · rw [rmax_eq, max_eq_left hr]

/-- `_calculate_frequency_risk` in guarded-maximum normal form. -/
theorem calculate_frequency_risk_eq (m : VelocityMetrics) :
    calculate_frequency_risk m =
      rmin (rmax (rmax (windowExcess (m.minute.count : ℚ) max_transactions_per_minute)
          (windowExcess (m.hour.count : ℚ) max_transactions_per_hour))
        (windowExcess (m.day.count : ℚ) max_transactions_per_day)) 1 := by
  have hg1 : 0 ≤ rmin ((m.minute.count : ℚ) / max_transactions_per_minute) 2 / 2 :=
    rminHalf_nonneg (by rw [max_transactions_per_minute]; positivity)
  have hg2 : 0 ≤ rmin ((m.hour.count : ℚ) / max_transactions_per_hour) 2 / 2 :=
    rminHalf_nonneg (by rw [max_transactions_per_hour]; positivity)
  have hg3 : 0 ≤ rmin ((m.day.count : ℚ) / max_transactions_per_day) 2 / 2 :=
    rminHalf_nonneg (by rw [max_transactions_per_day]; positivity)
  simp only [calculate_frequency_risk, windowExcess]
  rw [first_step _ _ hg1]
  have hI1 : (0:ℚ) ≤ (if (m.minute.count : ℚ) > max_transactions_per_minute then
      rmin ((m.minute.count : ℚ) / max_transactions_per_minute) 2 / 2 else 0) :=
    ite_nonneg hg1 le_rfl
  rw [ite_step _ _ _ hI1]
  have hI12 : (0:ℚ) ≤ rmax (if (m.minute.count : ℚ) > max_transactions_per_minute then
      rmin ((m.minute.count : ℚ) / max_transactions_per_minute) 2 / 2 else 0)
      (if (m.hour.count : ℚ) > max_transactions_per_hour then
        rmin ((m.hour.count : ℚ) / max_transactions_per_hour) 2 / 2 else 0) := by
    rw [rmax_eq]; exact le_max_of_le_left hI1
  rw [ite_step _ _ _ hI12]

/-- `_calculate_volume_risk` in guarded-maximum normal form. -/
theorem calculate_volume_risk_eq (m : VelocityMetrics) :
    calculate_volume_risk m =
      rmin (rmax (rmax (windowExcess m.minute.total_amount max_amount_per_minute)
          (windowExcess m.hour.total_amount max_amount_per_hour))
        (windowExcess m.day.total_amount max_amount_per_day)) 1 := by
  simp only [calculate_volume_risk, windowExcess]
  rw [show (if m.minute.total_amount > max_amount_per_minute then
      rmax 0 (rmin (m.minute.total_amount / max_amount_per_minute) 2 / 2) else 0) =
      (if m.minute.total_amount > max_amount_per_minute then
      rmin (m.minute.total_amount / max_amount_per_minute) 2 / 2 else 0) by
    split
    · next h =>
      rw [rmax_eq, max_eq_right]
      exact rminHalf_nonneg (div_nonneg (le_of_lt (lt_trans (by rw [max_amount_per_minute]; norm_num) h)) (by rw [max_amount_per_minute]; norm_num))
    · rfl]
  have hI1 : (0:ℚ) ≤ (if m.minute.total_amount > max_amount_per_minute then
      rmin (m.minute.total_amount / max_amount_per_minute) 2 / 2 else 0) := by
    split
    · next h =>
      exact rminHalf_nonneg (div_nonneg (le_of_lt (lt_trans (by rw [max_amount_per_minute]; norm_num) h)) (by rw [max_amount_per_minute]; norm_num))
    · exact le_rfl
  rw [ite_step _ _ _ hI1]
  have hI12 : (0:ℚ) ≤ rmax (if m.minute.total_amount > max_amount_per_minute then
      rmin (m.minute.total_amount / max_amount_per_minute) 2 / 2 else 0)
      (if m.hour.total_amount > max_amount_per_hour then
        rmin (m.hour.total_amount / max_amount_per_hour) 2 / 2 else 0) := by
    rw [rmax_eq]; exact le_max_of_le_left hI1
  rw [ite_step _ _ _ hI12]

/-! ### Supporting lemmas for the sanctions screening -/

theorem check_sanctions_screening_nameHit (td : Transaction)
    (h : sanctions_list.any (fun e => containsSub e (upperStr td.customer_name)) = true) :
    (check_sanctions_screening td).score = 1 ∧
      "SANCTIONS_MATCH" ∈ (check_sanctions_screening td).flags := by
  have hname : sanctions_list.any (fun e => containsSub e (upperStr td.customer_name) ||
      containsSub e (upperStr td.merchant_name)) = true := by
    rw [List.any_eq_true] at h ⊢
    obtain ⟨e, he, hc⟩ := h
    exact ⟨e, he, by rw [hc, Bool.true_or]⟩
  constructor
  · simp only [check_sanctions_screening, hname, if_true]
    split
    · rw [rmax_eq, max_eq_left (by norm_num)]
    · rfl
  · simp only [check_sanctions_screening, hname, if_true]
    split <;> simp

/-!
### C1 — the spec's AML scenario

The spec scenario (amount 9900, hour 2, merchant category GAMBLING, location
OFFSHORE) produces the four expected flags, but the weighted score is
0.4×0.2 + 0×0.2 + 0.9×0.35 + 0×0.25 = 0.395, which is not greater than 0.5.
-/

/-- The spec §8 scenario transaction. -/
def scenarioTx : Transaction :=
  { transaction_amount := 9900, transaction_hour := 2,
    merchant_category := "GAMBLING", location := "OFFSHORE" }

/-- C1 (counterexample): for the scenario amount=9900, hour=2,
merchantCategory="GAMBLING", location="OFFSHORE" with no history,
`calculate_overall_aml_risk` returns 0.395, which is not strictly greater
than 0.5 as the claim asserts. -/
theorem C1_counterexample :
    ¬ ((calculate_overall_aml_risk 0 scenarioTx [] []).aml_overall_risk_score > 1/2) := by
  decide

/-- C1 (amended): for the scenario transaction, `calculate_overall_aml_risk`
returns an `aml_overall_risk_score` of exactly 0.395 (hence greater than the
0.35 MEDIUM cut-point, risk level "MEDIUM"), and its `aml_flags` list
contains AMOUNT_NEAR_CTR_THRESHOLD, UNUSUAL_TIMING,
HIGH_RISK_MERCHANT_CATEGORY and HIGH_RISK_LOCATION. -/
theorem C1_amended :
    (calculate_overall_aml_risk 0 scenarioTx [] []).aml_overall_risk_score = 79/200 ∧
    (calculate_overall_aml_risk 0 scenarioTx [] []).aml_overall_risk_score > 35/100 ∧
    (calculate_overall_aml_risk 0 scenarioTx [] []).aml_risk_level = "MEDIUM" ∧
    "AMOUNT_NEAR_CTR_THRESHOLD" ∈ (calculate_overall_aml_risk 0 scenarioTx [] []).aml_flags ∧
    "UNUSUAL_TIMING" ∈ (calculate_overall_aml_risk 0 scenarioTx [] []).aml_flags ∧
    "HIGH_RISK_MERCHANT_CATEGORY" ∈ (calculate_overall_aml_risk 0 scenarioTx [] []).aml_flags ∧
    "HIGH_RISK_LOCATION" ∈ (calculate_overall_aml_risk 0 scenarioTx [] []).aml_flags := by
  decide

/-!
### C3 — the frequency-risk formula

The spec formula takes `min(count/max, 2)/2` for every window; the source
only lets a window contribute when its count strictly exceeds the window's
configured maximum.
-/

/-- The frequency risk exactly as the spec words it (§4.2 step 2): the
maximum over the minute, hour and day windows of `min(count/max, 2.0)/2.0`,
clamped to [0,1] — with no below-maximum guard. -/
def specFrequencyRisk (m : VelocityMetrics) : ℚ :=
  rmin (rmax (rmax (rmax
    (rmin ((m.minute.count : ℚ) / max_transactions_per_minute) 2 / 2)
    (rmin ((m.hour.count : ℚ) / max_transactions_per_hour) 2 / 2))
    (rmin ((m.day.count : ℚ) / max_transactions_per_day) 2 / 2)) 0) 1

/-- The frequency risk with the source's guard: a window contributes only
when its count strictly exceeds the configured maximum for that window. -/
def specFrequencyRiskGuarded (m : VelocityMetrics) : ℚ :=
  rmin (rmax (rmax (windowExcess (m.minute.count : ℚ) max_transactions_per_minute)
    (windowExcess (m.hour.count : ℚ) max_transactions_per_hour))
    (windowExcess (m.day.count : ℚ) max_transactions_per_day)) 1

/-- C3 (counterexample): with minute-window count 5 (below the maximum of
10) and all other counts 0, `_calculate_frequency_risk` returns 0, not the
0.25 that the spec's unguarded formula `min(5/10,2)/2` prescribes. -/
theorem C3_counterexample :
    calculate_frequency_risk ⟨⟨5, 0, 0, 0, 0⟩, ⟨0, 0, 0, 0, 0⟩, ⟨0, 0, 0, 0, 0⟩, ⟨0, 0, 0, 0, 0⟩⟩ = 0 ∧
    specFrequencyRisk ⟨⟨5, 0, 0, 0, 0⟩, ⟨0, 0, 0, 0, 0⟩, ⟨0, 0, 0, 0, 0⟩, ⟨0, 0, 0, 0, 0⟩⟩ = 1/4 ∧
    calculate_frequency_risk ⟨⟨5, 0, 0, 0, 0⟩, ⟨0, 0, 0, 0, 0⟩, ⟨0, 0, 0, 0, 0⟩, ⟨0, 0, 0, 0, 0⟩⟩ ≠
      specFrequencyRisk ⟨⟨5, 0, 0, 0, 0⟩, ⟨0, 0, 0, 0, 0⟩, ⟨0, 0, 0, 0, 0⟩, ⟨0, 0, 0, 0, 0⟩⟩ := by
  decide

/-- C3 (amended): for every set of window metrics, the frequency risk
computed by `_calculate_frequency_risk` equals the maximum, over the minute,
hour and day windows, of `min(count/maxCountForWindow, 2.0)/2.0` restricted
to windows whose count strictly exceeds the configured maximum (a window at
or below its maximum contributes 0), clamped to [0,1]. -/
theorem C3_amended (m : VelocityMetrics) :
    calculate_frequency_risk m = specFrequencyRiskGuarded m :=
  calculate_frequency_risk_eq m

/-!
### C4 — escalation dominance in the aggregator (spec-modelled)
-/

/-- C4: for every base fraud probability and sub-engine results, if either
sub-engine reports manual review or a HIGH risk level, the aggregated
`riskLevel` is HIGH and `isFraud` is true (`combine` is modelled from the
spec: no aggregator exists in the source). -/
theorem C4_escalation_dominance (baseFraud : ℚ) (aml : AmlResult) (vel : VelocityResult)
    (h : aml.requires_manual_review = true ∨ vel.requires_velocity_review = true ∨
      aml.aml_risk_level = "HIGH" ∨ vel.velocity_risk_level = "HIGH") :
    (combine baseFraud aml vel).riskLevel = "HIGH" ∧
      (combine baseFraud aml vel).isFraud = true := by
  have hesc : (aml.requires_manual_review || vel.requires_velocity_review ||
      (aml.aml_risk_level == "HIGH") || (vel.velocity_risk_level == "HIGH")) = true := by
    rcases h with h | h | h | h <;> simp [h]
  constructor
  · simp only [combine, hesc, if_true]
  · simp only [combine, hesc, Bool.true_or]

/-- C4 witness: a concrete AML result with `requires_manual_review` set and
all scores zero forces a HIGH aggregate verdict even though the combined
score is 0 < 0.5. -/
theorem C4_escalation_dominance_witness :
    ((combine 0 ⟨0, "MINIMAL", [], 0, 0, 0, 0, true⟩
        ⟨0, "MINIMAL", empty_velocity_metrics, 0, 0, 0, false⟩).riskLevel = "HIGH" ∧
      (combine 0 ⟨0, "MINIMAL", [], 0, 0, 0, 0, true⟩
        ⟨0, "MINIMAL", empty_velocity_metrics, 0, 0, 0, false⟩).isFraud = true) ∧
    (combine 0 ⟨0, "MINIMAL", [], 0, 0, 0, 0, true⟩
        ⟨0, "MINIMAL", empty_velocity_metrics, 0, 0, 0, false⟩).combinedScore < 1/2 :=
  ⟨C4_escalation_dominance 0 ⟨0, "MINIMAL", [], 0, 0, 0, 0, true⟩
      ⟨0, "MINIMAL", empty_velocity_metrics, 0, 0, 0, false⟩ (Or.inl rfl),
    by decide⟩

/-!
### C5 — sanctions short-circuit
-/

/-- C5: for every transaction whose (upper-cased) customer name contains a
configured sanctioned-entity string, `calculate_overall_aml_risk` returns a
sanctions component score of exactly 1.0 and `requires_manual_review = true`,
for every amount and history. -/
theorem C5_sanctions_short_circuit (now : ℚ) (td : Transaction)
    (th ah : List HistEntry)
    (h : sanctions_list.any (fun e => containsSub e (upperStr td.customer_name)) = true) :
    (calculate_overall_aml_risk now td th ah).component_sanctions = 1 ∧
    (calculate_overall_aml_risk now td th ah).requires_manual_review = true := by
  obtain ⟨hscore, hflag⟩ := check_sanctions_screening_nameHit td h
  constructor
  · simp only [calculate_overall_aml_risk]
    rw [hscore]
    decide
  · simp only [calculate_overall_aml_risk, decide_eq_true_eq]
    right
    exact List.mem_append_right _ hflag

/-- C5 witness: the sanctions short-circuit at a concrete transaction whose
customer name is exactly the sanctioned string, amount 42. -/
theorem C5_sanctions_short_circuit_witness :
    (sanctions_list.any (fun e => containsSub e
        (upperStr (Transaction.mk 42 12 "UNKNOWN" "UNKNOWN" "SANCTIONED_ENTITY_1" "").customer_name)) = true) ∧
    (calculate_overall_aml_risk 0 (Transaction.mk 42 12 "UNKNOWN" "UNKNOWN" "SANCTIONED_ENTITY_1" "") [] []).component_sanctions = 1 ∧
    (calculate_overall_aml_risk 0 (Transaction.mk 42 12 "UNKNOWN" "UNKNOWN" "SANCTIONED_ENTITY_1" "") [] []).requires_manual_review = true :=
  ⟨by decide,
    C5_sanctions_short_circuit 0 (Transaction.mk 42 12 "UNKNOWN" "UNKNOWN" "SANCTIONED_ENTITY_1" "") [] [] (by decide)⟩

/-!
### C6 — the manual-review rule

The source checks only for the name-based "SANCTIONS_MATCH" flag, not for
the location-based "SANCTIONS_LOCATION" flag that the sanctions screening
also emits.
-/

/-- C6 (counterexample): a transaction from location "BLOCKED_COUNTRY_CODE"
receives the location-based sanctions flag from the sanctions screening, its
overall risk 0.2 is below 0.7, and yet `requires_manual_review` is false —
refuting the claim that any sanctions-screening flag forces review. -/
theorem C6_counterexample :
    "SANCTIONS_LOCATION" ∈
      (calculate_overall_aml_risk 0 { location := "BLOCKED_COUNTRY_CODE" } [] []).aml_flags ∧
    amlOverallRisk 0 { location := "BLOCKED_COUNTRY_CODE" } [] [] < 7/10 ∧
    (calculate_overall_aml_risk 0 { location := "BLOCKED_COUNTRY_CODE" } [] []).requires_manual_review = false := by
  decide

/-- C6 (amended): for every transaction and histories,
`requires_manual_review` is true if and only if the (unrounded) overall AML
risk is at least 0.7 or the name-based "SANCTIONS_MATCH" flag is present in
the flag list (the location-based "SANCTIONS_LOCATION" flag does not force
review). -/
theorem C6_amended (now : ℚ) (td : Transaction) (th ah : List HistEntry) :
    (calculate_overall_aml_risk now td th ah).requires_manual_review = true ↔
      (amlOverallRisk now td th ah ≥ 7/10 ∨
        "SANCTIONS_MATCH" ∈ (calculate_overall_aml_risk now td th ah).aml_flags) := by
  simp only [calculate_overall_aml_risk, decide_eq_true_eq]

/-!
### C7 — all scores lie in [0, 1]
-/

theorem rmin_one_bounds {s : ℚ} (hs : 0 ≤ s) : 0 ≤ rmin s 1 ∧ rmin s 1 ≤ 1 := by
  rw [rmin_eq]
  exact ⟨le_min hs zero_le_one, min_le_right _ _⟩

theorem check_structuring_score_bounds (now : ℚ) (td : Transaction) (h : List HistEntry) :
    0 ≤ (check_structuring now td h).score ∧ (check_structuring now td h).score ≤ 1 := by
  simp only [check_structuring]
  exact rmin_one_bounds
    (add_nonneg (ite_nonneg (by norm_num) le_rfl) (ite_nonneg (by norm_num) le_rfl))

theorem check_rapid_movement_score_bounds (now : ℚ) (td : Transaction) (h : List HistEntry) :
    0 ≤ (check_rapid_movement now td h).score ∧ (check_rapid_movement now td h).score ≤ 1 := by
  simp only [check_rapid_movement]
  exact rmin_one_bounds
    (add_nonneg (add_nonneg (ite_nonneg (by norm_num) le_rfl) (ite_nonneg (by norm_num) le_rfl))
      (ite_nonneg (by norm_num) le_rfl))

theorem check_suspicious_patterns_score_bounds (td : Transaction) :
    0 ≤ (check_suspicious_patterns td).score ∧ (check_suspicious_patterns td).score ≤ 1 := by
  simp only [check_suspicious_patterns]
  exact rmin_one_bounds
    (add_nonneg (add_nonneg (add_nonneg (ite_nonneg (by norm_num) le_rfl)
      (ite_nonneg (by norm_num) le_rfl)) (ite_nonneg (by norm_num) le_rfl))
      (ite_nonneg (by norm_num) le_rfl))

theorem check_sanctions_screening_score_bounds (td : Transaction) :
    0 ≤ (check_sanctions_screening td).score ∧ (check_sanctions_screening td).score ≤ 1 := by
  simp only [check_sanctions_screening]
  have h1 : (0:ℚ) ≤ (if (sanctions_list.any fun e =>
      containsSub e (upperStr td.customer_name) || containsSub e (upperStr td.merchant_name)) = true
      then (1:ℚ) else 0) := ite_nonneg zero_le_one le_rfl
  have h2 : (if (sanctions_list.any fun e =>
      containsSub e (upperStr td.customer_name) || containsSub e (upperStr td.merchant_name)) = true
      then (1:ℚ) else 0) ≤ 1 := by split <;> norm_num
  constructor
  · split
    · rw [rmax_eq]; exact le_max_of_le_right (by norm_num)
    · exact h1
  · split
    · rw [rmax_eq]; exact max_le h2 (by norm_num)
    · exact h2

theorem amlOverallRisk_bounds (now : ℚ) (td : Transaction) (th ah : List HistEntry) :
    0 ≤ amlOverallRisk now td th ah ∧ amlOverallRisk now td th ah ≤ 1 := by
  obtain ⟨h1a, h1b⟩ := check_structuring_score_bounds now td th
  obtain ⟨h2a, h2b⟩ := check_rapid_movement_score_bounds now td ah
  obtain ⟨h3a, h3b⟩ := check_suspicious_patterns_score_bounds td
  obtain ⟨h4a, h4b⟩ := check_sanctions_screening_score_bounds td
  rw [amlOverallRisk]
  constructor <;> nlinarith

theorem calculate_frequency_risk_bounds (m : VelocityMetrics) :
    0 ≤ calculate_frequency_risk m ∧ calculate_frequency_risk m ≤ 1 := by
  rw [calculate_frequency_risk_eq]
  refine rmin_one_bounds ?_
  rw [rmax_eq]
  exact le_max_of_le_right
    (windowExcess_nonneg (by rw [max_transactions_per_day]; norm_num))

theorem calculate_volume_risk_bounds (m : VelocityMetrics) :
    0 ≤ calculate_volume_risk m ∧ calculate_volume_risk m ≤ 1 := by
  rw [calculate_volume_risk_eq]
  refine rmin_one_bounds ?_
  rw [rmax_eq]
  exact le_max_of_le_right (windowExcess_nonneg (by rw [max_amount_per_day]; norm_num))

theorem calculate_pattern_risk_bounds (currentHour : ℤ) (m : VelocityMetrics)
    (td : Transaction) :
    0 ≤ calculate_pattern_risk currentHour m td ∧
      calculate_pattern_risk currentHour m td ≤ 1 := by
  simp only [calculate_pattern_risk]
  exact rmin_one_bounds
    (add_nonneg (add_nonneg (add_nonneg (ite_nonneg (by norm_num) le_rfl)
      (ite_nonneg (by norm_num) le_rfl)) (ite_nonneg (by norm_num) le_rfl))
      (ite_nonneg (by norm_num) le_rfl))

theorem velocityOverallRisk_bounds (currentHour : ℤ) (m : VelocityMetrics)
    (td : Transaction) :
    0 ≤ velocityOverallRisk currentHour m td ∧
      velocityOverallRisk currentHour m td ≤ 1 := by
  obtain ⟨h1a, h1b⟩ := calculate_frequency_risk_bounds m
  obtain ⟨h2a, h2b⟩ := calculate_volume_risk_bounds m
  obtain ⟨h3a, h3b⟩ := calculate_pattern_risk_bounds currentHour m td
  rw [velocityOverallRisk]
  constructor <;> nlinarith

theorem round4_bounds {x : ℚ} (h0 : 0 ≤ x) (h1 : x ≤ 1) :
    0 ≤ round4 x ∧ round4 x ≤ 1 :=
  ⟨round4_nonneg h0, round4_le_one h1⟩

/-- C7: for every transaction, ledger state, caller-supplied history and
clock reading, the rounded `velocity_risk_score` of `assess_velocity_risk`,
the rounded `aml_overall_risk_score` of `calculate_overall_aml_risk`, and
every rounded component score of both engines (frequency, volume, pattern,
structuring, rapid movement, suspicious patterns, sanctions) lie in the
closed interval [0, 1]. -/
theorem C7_all_scores_in_unit_interval (now : ℚ) (currentHour : ℤ) (cid : String)
    (td : Transaction) (st : MonitorState) (th ah : List HistEntry) :
    (0 ≤ (assess_velocity_risk now currentHour cid td st).1.velocity_risk_score ∧
      (assess_velocity_risk now currentHour cid td st).1.velocity_risk_score ≤ 1) ∧
    (0 ≤ (assess_velocity_risk now currentHour cid td st).1.component_frequency_risk ∧
      (assess_velocity_risk now currentHour cid td st).1.component_frequency_risk ≤ 1) ∧
    (0 ≤ (assess_velocity_risk now currentHour cid td st).1.component_volume_risk ∧
      (assess_velocity_risk now currentHour cid td st).1.component_volume_risk ≤ 1) ∧
    (0 ≤ (assess_velocity_risk now currentHour cid td st).1.component_pattern_risk ∧
      (assess_velocity_risk now currentHour cid td st).1.component_pattern_risk ≤ 1) ∧
    (0 ≤ (calculate_overall_aml_risk now td th ah).aml_overall_risk_score ∧
      (calculate_overall_aml_risk now td th ah).aml_overall_risk_score ≤ 1) ∧
    (0 ≤ (calculate_overall_aml_risk now td th ah).component_structuring ∧
      (calculate_overall_aml_risk now td th ah).component_structuring ≤ 1) ∧
    (0 ≤ (calculate_overall_aml_risk now td th ah).component_rapid_movement ∧
      (calculate_overall_aml_risk now td th ah).component_rapid_movement ≤ 1) ∧
    (0 ≤ (calculate_overall_aml_risk now td th ah).component_suspicious_patterns ∧
      (calculate_overall_aml_risk now td th ah).component_suspicious_patterns ≤ 1) ∧
    (0 ≤ (calculate_overall_aml_risk now td th ah).component_sanctions ∧
      (calculate_overall_aml_risk now td th ah).component_sanctions ≤ 1) := by
  simp only [assess_velocity_risk, calculate_overall_aml_risk]
  obtain ⟨hva, hvb⟩ := velocityOverallRisk_bounds currentHour
    (calculate_velocity_metrics now (record_transaction now cid td st).buffer cid) td
  obtain ⟨hfa, hfb⟩ := calculate_frequency_risk_bounds
    (calculate_velocity_metrics now (record_transaction now cid td st).buffer cid)
  obtain ⟨hoa, hob⟩ := calculate_volume_risk_bounds
    (calculate_velocity_metrics now (record_transaction now cid td st).buffer cid)
  obtain ⟨hpa, hpb⟩ := calculate_pattern_risk_bounds currentHour
    (calculate_velocity_metrics now (record_transaction now cid td st).buffer cid) td
  obtain ⟨haa, hab⟩ := amlOverallRisk_bounds now td th ah
  obtain ⟨h1a, h1b⟩ := check_structuring_score_bounds now td th
  obtain ⟨h2a, h2b⟩ := check_rapid_movement_score_bounds now td ah
  obtain ⟨h3a, h3b⟩ := check_suspicious_patterns_score_bounds td
  obtain ⟨h4a, h4b⟩ := check_sanctions_screening_score_bounds td
  exact ⟨round4_bounds hva hvb, round4_bounds hfa hfb, round4_bounds hoa hob,
    round4_bounds hpa hpb, round4_bounds haa hab, round4_bounds h1a h1b,
    round4_bounds h2a h2b, round4_bounds h3a h3b, round4_bounds h4a h4b⟩

/-!
### Ledger lemmas: the buffer store, the cleanup loop and window filtering
-/

theorem getBuf_setBuf_self (s : List (String × Buffer)) (cid : String) (b : Buffer) :
    getBuf (setBuf s cid b) cid = b := by
  induction s with
  | nil => simp [setBuf, getBuf, List.lookup]
  | cons kb rest ih =>
    by_cases h : kb.1 = cid
    · simp [setBuf, h, getBuf, List.lookup]
    · have hbeq : (cid == kb.1) = false := beq_eq_false_iff_ne.mpr (Ne.symm h)
      simpa [setBuf, h, getBuf, List.lookup, hbeq] using ih

theorem mem_setBuf {s : List (String × Buffer)} {cid : String} {b : Buffer}
    {kb : String × Buffer} (h : kb ∈ setBuf s cid b) : kb ∈ s ∨ kb = (cid, b) := by
  induction s with
  | nil => simpa [setBuf] using h
  | cons hd rest ih =>
    by_cases hk : hd.1 = cid
    · rw [setBuf] at h
      rw [if_pos hk] at h
      rcases List.mem_cons.mp h with h1 | h1
      · exact Or.inr h1
      · exact Or.inl (List.mem_cons_of_mem _ h1)
    · rw [setBuf] at h
      rw [if_neg hk] at h
      rcases List.mem_cons.mp h with h1 | h1
      · exact Or.inl (h1 ▸ List.mem_cons_self _ _)
      · rcases ih h1 with h2 | h2
        · exact Or.inl (List.mem_cons_of_mem _ h2)
        · exact Or.inr h2

/-- Every surviving entry of `_cleanup_old_transactions` comes from an entry
of the store with its old transactions dropped, and is nonempty. -/
theorem mem_cleanup {now : ℚ} {store : List (String × Buffer)}
    {kb : String × Buffer} (h : kb ∈ cleanup_old_transactions now store) :
    (∃ kb0 ∈ store, kb = (kb0.1, dropOld (now - max_time_window) kb0.2)) ∧
      ¬ kb.2.timestamps.isEmpty := by
  rw [cleanup_old_transactions] at h
  rw [List.mem_filter] at h
  obtain ⟨hmem, hne⟩ := h
  rw [List.mem_map] at hmem
  obtain ⟨kb0, hkb0, hkb⟩ := hmem
  exact ⟨⟨kb0, hkb0, hkb.symm⟩, by simpa using hne⟩

/-- The popleft loop `dropOldAux` removes a common prefix of the three
parallel deques: all removed timestamps are before the cutoff, and the first
retained timestamp (when any) is not. -/
theorem dropOldAux_spec (cutoff : ℚ) :
    ∀ (tss : List ℚ) (txs : List Transaction) (ams : List ℚ),
    ∃ k, k ≤ tss.length ∧
      dropOldAux cutoff txs ams tss = (txs.drop k, ams.drop k, tss.drop k) ∧
      (∀ t ∈ tss.take k, t < cutoff) ∧
      (∀ hd, (tss.drop k).head? = some hd → cutoff ≤ hd) := by
  intro tss
  induction tss with
  | nil =>
    intro txs ams
    exact ⟨0, by simp, by simp [dropOldAux], by simp, by simp⟩
  | cons t rest ih =>
    intro txs ams
    by_cases h : t < cutoff
    · obtain ⟨k, hk, heq, htake, hhead⟩ := ih txs.tail ams.tail
      refine ⟨k + 1, by simpa using Nat.succ_le_succ hk, ?_, ?_, ?_⟩
      · rw [dropOldAux, if_pos h, heq]
        have h1 : txs.tail.drop k = txs.drop (k + 1) := by
          rw [← List.drop_one, List.drop_drop, Nat.add_comm]
        have h2 : ams.tail.drop k = ams.drop (k + 1) := by
          rw [← List.drop_one, List.drop_drop, Nat.add_comm]
        rw [h1, h2, List.drop_succ_cons]
      · intro x hx
        rw [List.take_succ_cons] at hx
        rcases List.mem_cons.mp hx with rfl | hx
        · exact h
        · exact htake x hx
      · intro hd hhd
        rw [List.drop_succ_cons] at hhd
        exact hhead hd hhd
    · refine ⟨0, Nat.zero_le _, ?_, by simp, ?_⟩
      · rw [dropOldAux, if_neg h]
        simp
      · intro hd hhd
        simp only [List.drop_zero, List.head?_cons, Option.some.injEq] at hhd
        exact hhd ▸ not_lt.mp h

/-- The cleaned buffer is nonempty as soon as some timestamp is at or after
the cutoff. -/
theorem dropOld_timestamps_ne_nil {cutoff : ℚ} {b : Buffer}
    (h : ∃ t ∈ b.timestamps, cutoff ≤ t) :
    (dropOld cutoff b).timestamps ≠ [] := by
  obtain ⟨t, ht, hct⟩ := h
  obtain ⟨k, hk, heq, htake, -⟩ := dropOldAux_spec cutoff b.timestamps b.transactions b.amounts
  rw [dropOld, heq]
  intro hnil
  simp only at hnil
  have hlen : b.timestamps.length ≤ k := List.drop_eq_nil_iff.mp hnil
  have htk : b.timestamps.take k = b.timestamps := List.take_of_length_le hlen
  have ht2 : t ∈ b.timestamps.take k := by rw [htk]; exact ht
  have := htake t ht2
  linarith

/-- Reading a customer back from the cleaned store, when its cleaned buffer
is nonempty. -/
theorem getBuf_cleanup {now : ℚ} {store : List (String × Buffer)} {cid : String}
    (h : (dropOld (now - max_time_window) (getBuf store cid)).timestamps ≠ []) :
    getBuf (cleanup_old_transactions now store) cid =
      dropOld (now - max_time_window) (getBuf store cid) := by
  induction store with
  | nil =>
    exfalso
    apply h
    simp [getBuf, List.lookup, Buffer.empty, dropOld, dropOldAux]
  | cons kb rest ih =>
    by_cases hk : kb.1 = cid
    · have hg : getBuf (kb :: rest) cid = kb.2 := by
        simp [getBuf, List.lookup, hk]
      rw [hg] at h ⊢
      have hkeep : ¬ (dropOld (now - max_time_window) kb.2).timestamps.isEmpty := by
        simpa using h
      rw [cleanup_old_transactions]
      simp only [List.map_cons, List.filter_cons]
      rw [if_pos (by simpa using hkeep)]
      simp [getBuf, List.lookup, hk]
    · have hbeq : (cid == kb.1) = false := beq_eq_false_iff_ne.mpr (Ne.symm hk)
      have hg : getBuf (kb :: rest) cid = getBuf rest cid := by
        simp [getBuf, List.lookup, hbeq]
      rw [hg] at h ⊢
      rw [cleanup_old_transactions]
      simp only [List.map_cons, List.filter_cons]
      split
      · rw [← ih h, cleanup_old_transactions]
        simp [getBuf, List.lookup, hbeq]
      · rw [← ih h, cleanup_old_transactions]

theorem zip_drop {α β : Type} : ∀ (k : ℕ) (l1 : List α) (l2 : List β),
    (l1.drop k).zip (l2.drop k) = (l1.zip l2).drop k := by
  intro k
  induction k with
  | zero => simp
  | succ n ih =>
    intro l1 l2
    match l1, l2 with
    | [], _ => simp
    | _ :: _, [] => simp
    | a :: l1, b :: l2 =>
      rw [List.drop_succ_cons, List.drop_succ_cons, List.zip_cons_cons,
        List.drop_succ_cons]
      exact ih l1 l2

theorem zip_take {α β : Type} : ∀ (k : ℕ) (l1 : List α) (l2 : List β),
    (l1.take k).zip (l2.take k) = (l1.zip l2).take k := by
  intro k
  induction k with
  | zero => simp
  | succ n ih =>
    intro l1 l2
    match l1, l2 with
    | [], _ => simp
    | _ :: _, [] => simp
    | a :: l1, b :: l2 =>
      rw [List.take_succ_cons, List.take_succ_cons, List.zip_cons_cons,
        List.zip_cons_cons, List.take_succ_cons, ih l1 l2]

/-- The window filter ignores a dropped prefix whose every element fails it. -/
theorem filter_drop_of_take_fails {α : Type} {p : α → Bool} {l : List α} {k : ℕ}
    (h : ∀ x ∈ l.take k, p x = false) : (l.drop k).filter p = l.filter p := by
  conv_rhs => rw [← List.take_append_drop k l]
  rw [List.filter_append]
  have : (l.take k).filter p = [] := by
    rw [List.filter_eq_nil_iff]
    intro a ha
    simp [h a ha]
  rw [this, List.nil_append]

/-!
### C10 — the parallel-deque invariant
-/

/-- Well-formedness of one customer buffer: the three parallel deques have
equal length and the timestamps are in nondecreasing (recording) order. -/
def BufferWF (b : Buffer) : Prop :=
  b.transactions.length = b.amounts.length ∧
  b.amounts.length = b.timestamps.length ∧
  List.Pairwise (· ≤ ·) b.timestamps

/-- Well-formedness of the monitor's buffer store at a clock bound: every
customer's buffer is well-formed and holds only timestamps up to `now`. -/
def StateWF (store : List (String × Buffer)) (now : ℚ) : Prop :=
  ∀ kb ∈ store, BufferWF kb.2 ∧ ∀ ts ∈ kb.2.timestamps, ts ≤ now

instance (b : Buffer) : Decidable (BufferWF b) := by
  unfold BufferWF
  infer_instance

instance (store : List (String × Buffer)) (now : ℚ) : Decidable (StateWF store now) := by
  unfold StateWF
  infer_instance

theorem exists_mem_of_lookup {α β : Type} [BEq α] {l : List (α × β)} {a : α} {b : β}
    (h : l.lookup a = some b) : ∃ k, (k, b) ∈ l := by
  induction l with
  | nil => simp [List.lookup] at h
  | cons kb rest ih =>
    rw [List.lookup] at h
    split at h
    · refine ⟨kb.1, ?_⟩
      simp only [Option.some.injEq] at h
      rw [← h]
      exact List.mem_cons_self _ _
    · obtain ⟨k, hk⟩ := ih h
      exact ⟨k, List.mem_cons_of_mem _ hk⟩

theorem getBuf_wf {store : List (String × Buffer)} {now : ℚ}
    (h : StateWF store now) (cid : String) :
    BufferWF (getBuf store cid) ∧ ∀ ts ∈ (getBuf store cid).timestamps, ts ≤ now := by
  rw [getBuf]
  cases hl : store.lookup cid with
  | none =>
    refine ⟨⟨rfl, rfl, List.Pairwise.nil⟩, ?_⟩
    intro ts hts
    simp [Buffer.empty] at hts
  | some b =>
    obtain ⟨k, hk⟩ := exists_mem_of_lookup hl
    exact h (k, b) hk

theorem bufferWF_append {b : Buffer} {now now' : ℚ}
    (hwf : BufferWF b) (hts : ∀ ts ∈ b.timestamps, ts ≤ now) (hle : now ≤ now')
    (td : Transaction) (a : ℚ) :
    BufferWF ⟨b.transactions ++ [td], b.amounts ++ [a], b.timestamps ++ [now']⟩ ∧
      ∀ ts ∈ b.timestamps ++ [now'], ts ≤ now' := by
  obtain ⟨h1, h2, h3⟩ := hwf
  refine ⟨⟨by simp [h1], by simp [h2], ?_⟩, ?_⟩
  · rw [List.pairwise_append]
    refine ⟨h3, List.pairwise_singleton _ _, ?_⟩
    intro x hx y hy
    rw [List.mem_singleton] at hy
    subst hy
    exact le_trans (hts x hx) hle
  · intro ts hts2
    rcases List.mem_append.mp hts2 with h | h
    · exact le_trans (hts ts h) hle
    · rw [List.mem_singleton] at h
      exact h.le

theorem bufferWF_dropOld {b : Buffer} (c : ℚ) (hwf : BufferWF b) :
    BufferWF (dropOld c b) ∧
      ∀ ts ∈ (dropOld c b).timestamps, ts ∈ b.timestamps := by
  obtain ⟨h1, h2, h3⟩ := hwf
  obtain ⟨k, hk, heq, -, -⟩ := dropOldAux_spec c b.timestamps b.transactions b.amounts
  rw [dropOld, heq]
  refine ⟨⟨by simp [h1], by simp [h2], h3.sublist (List.drop_sublist _ _)⟩, ?_⟩
  intro ts hts
  exact (List.drop_sublist _ _).mem hts

theorem stateWF_cleanup {store : List (String × Buffer)} {now now' : ℚ}
    (h : StateWF store now) (hle : now ≤ now') :
    StateWF (cleanup_old_transactions now' store) now' := by
  intro kb hkb
  obtain ⟨⟨kb0, hkb0, hkbeq⟩, -⟩ := mem_cleanup hkb
  obtain ⟨hwf0, hts0⟩ := h kb0 hkb0
  obtain ⟨hwf, hmem⟩ := bufferWF_dropOld (now' - max_time_window) hwf0
  subst hkbeq
  exact ⟨hwf, fun ts hts => le_trans (hts0 ts (hmem ts hts)) hle⟩

theorem stateWF_record {st : MonitorState} {now now' : ℚ}
    (h : StateWF st.buffer now) (hle : now ≤ now') (cid : String) (td : Transaction) :
    StateWF (record_transaction now' cid td st).buffer now' := by
  obtain ⟨hwf0, hts0⟩ := getBuf_wf h cid
  obtain ⟨hwf1, hts1⟩ := bufferWF_append hwf0 hts0 hle td td.transaction_amount
  have hstore' : StateWF (setBuf st.buffer cid
      ⟨(getBuf st.buffer cid).transactions ++ [td],
        (getBuf st.buffer cid).amounts ++ [td.transaction_amount],
        (getBuf st.buffer cid).timestamps ++ [now']⟩) now' := by
    intro kb hkb
    rcases mem_setBuf hkb with hmem | heq
    · obtain ⟨hwf, hts⟩ := h kb hmem
      exact ⟨hwf, fun ts h2 => le_trans (hts ts h2) hle⟩
    · subst heq
      exact ⟨hwf1, hts1⟩
  rw [record_transaction]
  split
  · exact stateWF_cleanup hstore' le_rfl
  · exact hstore'

/-- C10: every operation of the monitor (`record_transaction`,
`assess_velocity_risk`, `_cleanup_old_transactions`) preserves the invariant
that each customer's three parallel deques have equal length and hold
timestamps in nondecreasing recording order (bounded by the clock), and the
window query of any buffer is an order-preserving subsequence (sublist) of
the recorded (timestamp, amount) ledger. -/
theorem C10_ledger_invariant (st : MonitorState) (now now' : ℚ)
    (currentHour : ℤ) (cid : String) (td : Transaction)
    (h : StateWF st.buffer now) (hle : now ≤ now') :
    StateWF (record_transaction now' cid td st).buffer now' ∧
    StateWF (cleanup_old_transactions now' st.buffer) now' ∧
    StateWF (assess_velocity_risk now' currentHour cid td st).2.buffer now' ∧
    ∀ kb ∈ st.buffer, ∀ w : ℚ,
      (windowPairs now' w (kb.2.timestamps.zip kb.2.amounts)).Sublist
        (kb.2.timestamps.zip kb.2.amounts) := by
  refine ⟨stateWF_record h hle cid td, stateWF_cleanup h hle, ?_, ?_⟩
  · simp only [assess_velocity_risk]
    exact stateWF_record h hle cid td
  · intro kb _ w
    exact List.filter_sublist _

/-- C10 witness: the invariant preservation applied to a concrete one-customer
state. -/
theorem C10_ledger_invariant_witness :
    StateWF [("c", ⟨[{ transaction_amount := 5 }], [5], [10]⟩)] 10 ∧ (10:ℚ) ≤ 20 ∧
    (StateWF (record_transaction 20 "c" { transaction_amount := 7 }
        ⟨[("c", ⟨[{ transaction_amount := 5 }], [5], [10]⟩)], 0⟩).buffer 20 ∧
      StateWF (cleanup_old_transactions 20
        [("c", ⟨[{ transaction_amount := 5 }], [5], [10]⟩)]) 20 ∧
      StateWF (assess_velocity_risk 20 12 "c" { transaction_amount := 7 }
        ⟨[("c", ⟨[{ transaction_amount := 5 }], [5], [10]⟩)], 0⟩).2.buffer 20 ∧
      ∀ kb ∈ [("c", (⟨[{ transaction_amount := 5 }], [5], [10]⟩ : Buffer))], ∀ w : ℚ,
        (windowPairs 20 w (kb.2.timestamps.zip kb.2.amounts)).Sublist
          (kb.2.timestamps.zip kb.2.amounts)) :=
  ⟨by decide, by norm_num,
    C10_ledger_invariant ⟨[("c", ⟨[{ transaction_amount := 5 }], [5], [10]⟩)], 0⟩ 10 20 12 "c"
      { transaction_amount := 7 } (by decide) (by norm_num)⟩

/-!
### C8 — eviction correctness
-/

/-- A buffer presented as its list of (timestamp, amount) pairs (plus the
transaction deque, which the metrics never read). -/
def bufOfPairs (txs : List Transaction) (pairs : List (ℚ × ℚ)) : Buffer :=
  ⟨txs, pairs.map Prod.snd, pairs.map Prod.fst⟩

theorem zip_map_fst_snd {α β : Type} (l : List (α × β)) :
    (l.map Prod.fst).zip (l.map Prod.snd) = l := by
  induction l with
  | nil => rfl
  | cons hd tl ih => simp [ih]

theorem windowPairs_erase {now w t a : ℚ} (pre post : List (ℚ × ℚ))
    (hw : w ≤ max_time_window) (ht : t < now - max_time_window) :
    windowPairs now w (pre ++ (t, a) :: post) = windowPairs now w (pre ++ post) := by
  rw [windowPairs, windowPairs, List.filter_append, List.filter_append,
    List.filter_cons_of_neg]
  simp only [decide_eq_true_eq, not_le]
  rw [max_time_window] at hw ht
  linarith

theorem windowMetricsP_erase {now w t a : ℚ} (pre post : List (ℚ × ℚ))
    (hw : w ≤ max_time_window) (ht : t < now - max_time_window) :
    windowMetricsP now w (pre ++ (t, a) :: post) = windowMetricsP now w (pre ++ post) := by
  rw [windowMetricsP, windowMetricsP, windowPairs_erase pre post hw ht]

theorem metricsOfBuffer_erase {now t a : ℚ} (txs txs' : List Transaction)
    (pre post : List (ℚ × ℚ)) (ht : t < now - max_time_window) :
    metricsOfBuffer now (bufOfPairs txs (pre ++ (t, a) :: post)) =
      metricsOfBuffer now (bufOfPairs txs' (pre ++ post)) := by
  have e1 := @windowMetricsP_erase now minute_window t a pre post
    (by decide) ht
  have e2 := @windowMetricsP_erase now hour_window t a pre post
    (by decide) ht
  have e3 := @windowMetricsP_erase now day_window t a pre post
    (by decide) ht
  have e4 := @windowMetricsP_erase now week_window t a pre post
    (by decide) ht
  have hneL : ((bufOfPairs txs (pre ++ (t, a) :: post)).timestamps.isEmpty) ≠ true := by
    show ((pre ++ (t, a) :: post).map Prod.fst).isEmpty ≠ true
    rw [ne_eq, List.isEmpty_iff, List.map_eq_nil_iff]
    intro hnil
    exact List.cons_ne_nil _ _ (List.append_eq_nil.mp hnil).2
  by_cases hpp : pre ++ post = []
  · obtain ⟨hpre, hpost⟩ := List.append_eq_nil.mp hpp
    subst hpre; subst hpost
    have hz : ∀ w : ℚ, w ≤ max_time_window →
        windowMetricsP now w [(t, a)] = ⟨0, 0, 0, 0, 0⟩ := by
      intro w hw
      rw [show ((t, a) :: ([] : List (ℚ × ℚ))) = [] ++ (t, a) :: [] from rfl,
        windowMetricsP_erase [] [] hw ht]
      rfl
    have hL : metricsOfBuffer now (bufOfPairs txs ([] ++ (t, a) :: [])) =
        ⟨windowMetricsP now minute_window [(t, a)], windowMetricsP now hour_window [(t, a)],
          windowMetricsP now day_window [(t, a)], windowMetricsP now week_window [(t, a)]⟩ := by
      rw [metricsOfBuffer, if_neg hneL]
      rfl
    have hR : metricsOfBuffer now (bufOfPairs txs' ([] ++ ([] : List (ℚ × ℚ)))) =
        empty_velocity_metrics := by
      rw [metricsOfBuffer]
      rfl
    rw [hL, hR]
    rw [hz minute_window (by decide), hz hour_window (by decide),
      hz day_window (by decide), hz week_window le_rfl]
    rfl
  · have hneR : ((bufOfPairs txs' (pre ++ post)).timestamps.isEmpty) ≠ true := by
      show ((pre ++ post).map Prod.fst).isEmpty ≠ true
      rw [ne_eq, List.isEmpty_iff, List.map_eq_nil_iff]
      exact hpp
    rw [metricsOfBuffer, metricsOfBuffer, if_neg hneL, if_neg hneR]
    simp only [bufOfPairs]
    rw [zip_map_fst_snd, zip_map_fst_snd, e1, e2, e3, e4]

/-- C8: after `_cleanup_old_transactions` runs at time `now` on a store with
nondecreasing per-customer timestamps, every retained timestamp is at least
`now` minus the longest configured window, no customer maps to an empty
buffer, and an entry older than every window's cutoff contributes to no
count, sum, average, max or rate of `calculate_velocity_metrics` at `now`. -/
theorem C8_eviction_correct (now : ℚ) (store : List (String × Buffer))
    (hsort : ∀ kb ∈ store, List.Pairwise (· ≤ ·) kb.2.timestamps)
    (kb : String × Buffer) (hkb : kb ∈ cleanup_old_transactions now store)
    (ts : ℚ) (hts : ts ∈ kb.2.timestamps)
    (txs txs' : List Transaction) (pre post : List (ℚ × ℚ)) (t a : ℚ)
    (ht : t < now - max_time_window) :
    now - max_time_window ≤ ts ∧ kb.2.timestamps ≠ [] ∧
      metricsOfBuffer now (bufOfPairs txs (pre ++ (t, a) :: post)) =
        metricsOfBuffer now (bufOfPairs txs' (pre ++ post)) := by
  obtain ⟨⟨kb0, hkb0, hkbeq⟩, hne⟩ := mem_cleanup hkb
  refine ⟨?_, by simpa [List.isEmpty_iff] using hne, metricsOfBuffer_erase txs txs' pre post ht⟩
  have hsort0 := hsort kb0 hkb0
  obtain ⟨k, hk, heq, htake, hhead⟩ := dropOldAux_spec (now - max_time_window)
    kb0.2.timestamps kb0.2.transactions kb0.2.amounts
  have htsk : ts ∈ kb0.2.timestamps.drop k := by
    have : kb.2.timestamps = kb0.2.timestamps.drop k := by
      rw [hkbeq]
      simp only [dropOld, heq]
    rwa [this] at hts
  have hpair : List.Pairwise (· ≤ ·) (kb0.2.timestamps.drop k) :=
    hsort0.sublist (List.drop_sublist _ _)
  cases hdrop : kb0.2.timestamps.drop k with
  | nil => rw [hdrop] at htsk; simp at htsk
  | cons hd rest =>
    have hcut : now - max_time_window ≤ hd := hhead hd (by rw [hdrop]; rfl)
    rw [hdrop] at htsk hpair
    rcases List.mem_cons.mp htsk with rfl | hmem
    · exact hcut
    · have := (List.pairwise_cons.mp hpair).1 ts hmem
      linarith

/-- C8 witness: eviction at time 700000 on a two-entry buffer drops the
timestamp-0 entry and keeps timestamp 650000. -/
theorem C8_eviction_correct_witness :
    (∀ kb ∈ [("c", (⟨[{ transaction_amount := 5 }, { transaction_amount := 6 }],
        [5, 6], [0, 650000]⟩ : Buffer))], List.Pairwise (· ≤ ·) kb.2.timestamps) ∧
    (("c", (⟨[{ transaction_amount := 6 }], [6], [650000]⟩ : Buffer)) ∈
      cleanup_old_transactions 700000
        [("c", ⟨[{ transaction_amount := 5 }, { transaction_amount := 6 }],
          [5, 6], [0, 650000]⟩)]) ∧
    ((650000:ℚ) ∈ (⟨[{ transaction_amount := 6 }], [6], [650000]⟩ : Buffer).timestamps) ∧
    ((0:ℚ) < 700000 - max_time_window) ∧
    ((700000:ℚ) - max_time_window ≤ 650000 ∧
      (⟨[{ transaction_amount := 6 }], [6], [650000]⟩ : Buffer).timestamps ≠ [] ∧
      metricsOfBuffer 700000 (bufOfPairs [] ([] ++ ((0:ℚ), (1:ℚ)) :: [])) =
        metricsOfBuffer 700000 (bufOfPairs [] ([] ++ []))) :=
  ⟨by decide, by decide, by decide, by decide,
    C8_eviction_correct 700000
      [("c", ⟨[{ transaction_amount := 5 }, { transaction_amount := 6 }], [5, 6], [0, 650000]⟩)]
      (by decide)
      ("c", ⟨[{ transaction_amount := 6 }], [6], [650000]⟩) (by decide)
      650000 (by decide) [] [] [] [] 0 1 (by decide)⟩

/-!
### C9 — never-seen customers
-/

theorem getBuf_record_fresh {st : MonitorState} {cid : String} (now : ℚ)
    (td : Transaction) (hnone : st.buffer.lookup cid = none) :
    getBuf (record_transaction now cid td st).buffer cid =
      ⟨[td], [td.transaction_amount], [now]⟩ := by
  have hB0 : getBuf st.buffer cid = Buffer.empty := by
    rw [getBuf, hnone]
    rfl
  have hcut : ¬ (now < now - max_time_window) := by
    rw [max_time_window]
    intro h
    linarith
  rw [record_transaction, hB0]
  have happ : (Buffer.empty.transactions ++ [td], Buffer.empty.amounts ++ [td.transaction_amount],
      Buffer.empty.timestamps ++ [now]) = ([td], [td.transaction_amount], [now]) := rfl
  split
  · have hget : getBuf (setBuf st.buffer cid
        ⟨Buffer.empty.transactions ++ [td], Buffer.empty.amounts ++ [td.transaction_amount],
          Buffer.empty.timestamps ++ [now]⟩) cid =
        ⟨[td], [td.transaction_amount], [now]⟩ := getBuf_setBuf_self _ _ _
    have hne : (dropOld (now - max_time_window) (getBuf (setBuf st.buffer cid
        ⟨Buffer.empty.transactions ++ [td], Buffer.empty.amounts ++ [td.transaction_amount],
          Buffer.empty.timestamps ++ [now]⟩) cid)).timestamps ≠ [] := by
      rw [hget]
      exact dropOld_timestamps_ne_nil ⟨now, by simp, by rw [max_time_window]; linarith⟩
    show getBuf (cleanup_old_transactions now _) cid = _
    rw [getBuf_cleanup hne, hget, dropOld]
    rw [show (⟨[td], [td.transaction_amount], [now]⟩ : Buffer).timestamps = [now] from rfl]
    rw [dropOldAux, if_neg hcut]
  · exact getBuf_setBuf_self _ _ _

theorem windowMetricsP_single (now w a : ℚ) (hw : 0 < w) :
    windowMetricsP now w [(now, a)] = ⟨1, a, a, a, 1⟩ := by
  have hfil : List.filter (fun p => decide (p.1 ≥ now - w)) [(now, a)] = [(now, a)] := by
    rw [List.filter_eq_self]
    intro x hx
    rw [List.mem_singleton] at hx
    subst hx
    simp only [decide_eq_true_eq]
    linarith
  rw [windowMetricsP, windowPairs, hfil]
  simp only [List.map_cons, List.map_nil, List.length_cons, List.length_nil,
    List.isEmpty_cons, List.sum_cons, List.sum_nil, listMax, listMin,
    List.foldl_nil, if_false, Bool.false_eq_true]
  have hspan : now - now = 0 := by ring
  rw [hspan]
  norm_num

theorem metricsOfBuffer_single (now a : ℚ) (td : Transaction) :
    metricsOfBuffer now ⟨[td], [a], [now]⟩ =
      ⟨⟨1, a, a, a, 1⟩, ⟨1, a, a, a, 1⟩, ⟨1, a, a, a, 1⟩, ⟨1, a, a, a, 1⟩⟩ := by
  rw [metricsOfBuffer]
  rw [if_neg (by simp)]
  show (⟨windowMetricsP now minute_window [(now, a)], windowMetricsP now hour_window [(now, a)],
    windowMetricsP now day_window [(now, a)], windowMetricsP now week_window [(now, a)]⟩ :
      VelocityMetrics) = _
  rw [windowMetricsP_single now minute_window a (by decide),
    windowMetricsP_single now hour_window a (by decide),
    windowMetricsP_single now day_window a (by decide),
    windowMetricsP_single now week_window a (by decide)]

theorem frequency_risk_single (a : ℚ) :
    calculate_frequency_risk ⟨⟨1, a, a, a, 1⟩, ⟨1, a, a, a, 1⟩, ⟨1, a, a, a, 1⟩, ⟨1, a, a, a, 1⟩⟩ = 0 := by
  norm_num [calculate_frequency_risk, max_transactions_per_minute,
    max_transactions_per_hour, max_transactions_per_day, rmin]

theorem volume_risk_single {a : ℚ}
    (hamt : a ≤ max_amount_per_minute) :
    calculate_volume_risk ⟨⟨1, a, a, a, 1⟩, ⟨1, a, a, a, 1⟩, ⟨1, a, a, a, 1⟩, ⟨1, a, a, a, 1⟩⟩ = 0 := by
  rw [max_amount_per_minute] at hamt
  have h1 : ¬ ((⟨⟨1, a, a, a, 1⟩, ⟨1, a, a, a, 1⟩, ⟨1, a, a, a, 1⟩, ⟨1, a, a, a, 1⟩⟩ :
      VelocityMetrics).minute.total_amount > max_amount_per_minute) := by
    show ¬ (a > max_amount_per_minute)
    rw [max_amount_per_minute]
    linarith
  have h2 : ¬ ((⟨⟨1, a, a, a, 1⟩, ⟨1, a, a, a, 1⟩, ⟨1, a, a, a, 1⟩, ⟨1, a, a, a, 1⟩⟩ :
      VelocityMetrics).hour.total_amount > max_amount_per_hour) := by
    show ¬ (a > max_amount_per_hour)
    rw [max_amount_per_hour]
    linarith
  have h3 : ¬ ((⟨⟨1, a, a, a, 1⟩, ⟨1, a, a, a, 1⟩, ⟨1, a, a, a, 1⟩, ⟨1, a, a, a, 1⟩⟩ :
      VelocityMetrics).day.total_amount > max_amount_per_day) := by
    show ¬ (a > max_amount_per_day)
    rw [max_amount_per_day]
    linarith
  rw [calculate_volume_risk]
  rw [if_neg h1, if_neg h2, if_neg h3, rmin]
  norm_num

theorem pattern_risk_single (currentHour : ℤ) (td : Transaction) :
    calculate_pattern_risk currentHour
      ⟨⟨1, td.transaction_amount, td.transaction_amount, td.transaction_amount, 1⟩,
        ⟨1, td.transaction_amount, td.transaction_amount, td.transaction_amount, 1⟩,
        ⟨1, td.transaction_amount, td.transaction_amount, td.transaction_amount, 1⟩,
        ⟨1, td.transaction_amount, td.transaction_amount, td.transaction_amount, 1⟩⟩ td = 0 := by
  set a := td.transaction_amount with ha
  set M : VelocityMetrics :=
    ⟨⟨1, a, a, a, 1⟩, ⟨1, a, a, a, 1⟩, ⟨1, a, a, a, 1⟩, ⟨1, a, a, a, 1⟩⟩ with hM
  have h1 : ¬ (((M.minute.count : ℚ)) > 0 ∧ ((M.hour.count : ℚ)) > 0 ∧
      (M.minute.count : ℚ) / rmax ((M.hour.count : ℚ) / 60) 1 > 5) := by
    rintro ⟨-, -, h⟩
    rw [hM] at h
    rw [show rmax (((1:ℕ):ℚ) / 60) 1 = 1 by rw [rmax]; norm_num] at h
    norm_num at h
  have h2 : ¬ ((currentHour < 6 ∨ currentHour > 22) ∧ ((M.minute.count : ℚ)) > 3) := by
    rintro ⟨-, h⟩
    rw [hM] at h
    norm_num at h
  have h3 : ¬ (M.minute.avg_amount > 0 ∧ td.transaction_amount > M.minute.avg_amount * 3) := by
    rintro ⟨hx, hy⟩
    rw [hM] at hx hy
    simp only at hx hy
    rw [← ha] at hy
    linarith
  have h4 : ¬ (M.hour.avg_amount > 0 ∧ M.minute.avg_amount > M.hour.avg_amount * 2) := by
    rintro ⟨hx, hy⟩
    rw [hM] at hx hy
    simp only at hx hy
    linarith
  rw [calculate_pattern_risk]
  rw [if_neg h1, if_neg h2, if_neg h3, if_neg h4, rmin]
  norm_num

/-- C9 (counterexample): `assess_velocity_risk` records the incoming
transaction before measuring, so a never-seen customer's metrics are not all
zero — the day-window count is 1. -/
theorem C9_counterexample :
    (assess_velocity_risk 100 12 "c" { transaction_amount := 100 }
      ⟨[], 0⟩).1.velocity_metrics.day.count ≠ 0 := by
  decide

/-- C9 (amended): for a never-seen customer, `calculate_velocity_metrics`
returns all-zero metrics (and no error); `assess_velocity_risk` returns
without error, its metrics reflecting exactly the one just-recorded
transaction in every window (count 1, totals/averages/maxima equal to the
amount, rate 1), and its risk level is MINIMAL whenever the amount does not
exceed the per-minute volume threshold. -/
theorem C9_amended (now : ℚ) (currentHour : ℤ) (cid : String) (td : Transaction)
    (st : MonitorState) (hnone : st.buffer.lookup cid = none)
    (hamt : td.transaction_amount ≤ max_amount_per_minute) :
    calculate_velocity_metrics now st.buffer cid = empty_velocity_metrics ∧
    (assess_velocity_risk now currentHour cid td st).1.velocity_metrics =
      ⟨⟨1, td.transaction_amount, td.transaction_amount, td.transaction_amount, 1⟩,
        ⟨1, td.transaction_amount, td.transaction_amount, td.transaction_amount, 1⟩,
        ⟨1, td.transaction_amount, td.transaction_amount, td.transaction_amount, 1⟩,
        ⟨1, td.transaction_amount, td.transaction_amount, td.transaction_amount, 1⟩⟩ ∧
    (assess_velocity_risk now currentHour cid td st).1.velocity_risk_level = "MINIMAL" := by
  have hmet : calculate_velocity_metrics now (record_transaction now cid td st).buffer cid =
      ⟨⟨1, td.transaction_amount, td.transaction_amount, td.transaction_amount, 1⟩,
        ⟨1, td.transaction_amount, td.transaction_amount, td.transaction_amount, 1⟩,
        ⟨1, td.transaction_amount, td.transaction_amount, td.transaction_amount, 1⟩,
        ⟨1, td.transaction_amount, td.transaction_amount, td.transaction_amount, 1⟩⟩ := by
    rw [calculate_velocity_metrics, getBuf_record_fresh now td hnone,
      metricsOfBuffer_single]
  have hover : velocityOverallRisk currentHour
      ⟨⟨1, td.transaction_amount, td.transaction_amount, td.transaction_amount, 1⟩,
        ⟨1, td.transaction_amount, td.transaction_amount, td.transaction_amount, 1⟩,
        ⟨1, td.transaction_amount, td.transaction_amount, td.transaction_amount, 1⟩,
        ⟨1, td.transaction_amount, td.transaction_amount, td.transaction_amount, 1⟩⟩ td = 0 := by
    rw [velocityOverallRisk, frequency_risk_single, volume_risk_single hamt,
      pattern_risk_single]
    ring
  refine ⟨?_, ?_, ?_⟩
  · rw [calculate_velocity_metrics, getBuf, hnone]
    rfl
  · simp only [assess_velocity_risk]
    rw [hmet]
  · simp only [assess_velocity_risk]
    rw [hmet, hover, velocityRiskLevel]
    norm_num

/-- C9 witness: a fresh monitor, customer "c", amount 100 at time 100. -/
theorem C9_amended_witness :
    ((⟨[], 0⟩ : MonitorState).buffer.lookup "c" = none) ∧
    ((100:ℚ) ≤ max_amount_per_minute) ∧
    (calculate_velocity_metrics 100 (⟨[], 0⟩ : MonitorState).buffer "c" = empty_velocity_metrics ∧
     (assess_velocity_risk 100 12 "c" { transaction_amount := 100 } ⟨[], 0⟩).1.velocity_metrics =
       ⟨⟨1, 100, 100, 100, 1⟩, ⟨1, 100, 100, 100, 1⟩, ⟨1, 100, 100, 100, 1⟩, ⟨1, 100, 100, 100, 1⟩⟩ ∧
     (assess_velocity_risk 100 12 "c" { transaction_amount := 100 } ⟨[], 0⟩).1.velocity_risk_level = "MINIMAL") :=
  ⟨rfl, by decide,
    C9_amended 100 12 "c" { transaction_amount := 100 } ⟨[], 0⟩ rfl (by decide)⟩

/-!
### C2 — monotonicity in the amount

Volume risk is monotone in the amount.  The rapid-movement score is not: the
round-amount rule (+0.2 for a multiple of 1000 that is at least 5000) can
switch off when the amount grows, e.g. from 5000 to 5001.
-/

theorem getBuf_record (now : ℚ) (cid : String) (td : Transaction) (st : MonitorState) :
    getBuf (record_transaction now cid td st).buffer cid =
      (if now - st.last_cleanup > 300 then
        dropOld (now - max_time_window)
          ⟨(getBuf st.buffer cid).transactions ++ [td],
            (getBuf st.buffer cid).amounts ++ [td.transaction_amount],
            (getBuf st.buffer cid).timestamps ++ [now]⟩
       else
        ⟨(getBuf st.buffer cid).transactions ++ [td],
          (getBuf st.buffer cid).amounts ++ [td.transaction_amount],
          (getBuf st.buffer cid).timestamps ++ [now]⟩) := by
  rw [record_transaction]
  split
  · next hcond =>
    have hget := getBuf_setBuf_self st.buffer cid
      ⟨(getBuf st.buffer cid).transactions ++ [td],
        (getBuf st.buffer cid).amounts ++ [td.transaction_amount],
        (getBuf st.buffer cid).timestamps ++ [now]⟩
    have hne : (dropOld (now - max_time_window) (getBuf (setBuf st.buffer cid
        ⟨(getBuf st.buffer cid).transactions ++ [td],
          (getBuf st.buffer cid).amounts ++ [td.transaction_amount],
          (getBuf st.buffer cid).timestamps ++ [now]⟩) cid)).timestamps ≠ [] := by
      rw [hget]
      exact dropOld_timestamps_ne_nil
        ⟨now, by simp, by rw [max_time_window]; linarith⟩
    show getBuf (cleanup_old_transactions now _) cid = _
    rw [getBuf_cleanup hne, hget]
  · next hcond =>
    exact getBuf_setBuf_self _ _ _

theorem windowPairs_append_keep {now w t b : ℚ} (l : List (ℚ × ℚ)) (h : now - w ≤ t) :
    windowPairs now w (l ++ [(t, b)]) = windowPairs now w l ++ [(t, b)] := by
  rw [windowPairs, windowPairs, List.filter_append, List.filter_cons_of_pos]
  · rfl
  · simpa using h

theorem total_amount_eq (now w : ℚ) (l : List (ℚ × ℚ)) :
    (windowMetricsP now w l).total_amount = ((windowPairs now w l).map (fun p => p.2)).sum :=
  rfl

/-- Appending the just-recorded transaction adds its amount to every window
total (after the optional cleanup). -/
theorem total_after_record (now : ℚ) (cid : String) (td : Transaction) (st : MonitorState)
    (hlen : (getBuf st.buffer cid).timestamps.length = (getBuf st.buffer cid).amounts.length)
    (w : ℚ) (hw0 : 0 < w) (hwmax : w ≤ max_time_window) :
    (windowMetricsP now w
      ((getBuf (record_transaction now cid td st).buffer cid).timestamps.zip
        (getBuf (record_transaction now cid td st).buffer cid).amounts)).total_amount =
    (windowMetricsP now w
      ((getBuf st.buffer cid).timestamps.zip (getBuf st.buffer cid).amounts)).total_amount +
      td.transaction_amount := by
  have hzip : ((getBuf st.buffer cid).timestamps ++ [now]).zip
      ((getBuf st.buffer cid).amounts ++ [td.transaction_amount]) =
      (getBuf st.buffer cid).timestamps.zip (getBuf st.buffer cid).amounts ++
        [(now, td.transaction_amount)] := by
    rw [List.zip_append hlen]
    rfl
  have hkeep : now - w ≤ now := by linarith
  rw [getBuf_record]
  split
  · -- cleanup branch
    obtain ⟨k, hk, heq, htake, -⟩ := dropOldAux_spec (now - max_time_window)
      ((getBuf st.buffer cid).timestamps ++ [now])
      ((getBuf st.buffer cid).transactions ++ [td])
      ((getBuf st.buffer cid).amounts ++ [td.transaction_amount])
    rw [dropOld, heq]
    show (windowMetricsP now w
      ((((getBuf st.buffer cid).timestamps ++ [now]).drop k).zip
        (((getBuf st.buffer cid).amounts ++ [td.transaction_amount]).drop k))).total_amount = _
    rw [zip_drop, hzip]
    rw [total_amount_eq, total_amount_eq]
    rw [show windowPairs now w
        (((getBuf st.buffer cid).timestamps.zip (getBuf st.buffer cid).amounts ++
          [(now, td.transaction_amount)]).drop k) =
        windowPairs now w
        ((getBuf st.buffer cid).timestamps.zip (getBuf st.buffer cid).amounts ++
          [(now, td.transaction_amount)]) from ?_]
    · rw [windowPairs_append_keep _ hkeep, List.map_append, List.sum_append]
      simp
    · rw [windowPairs, windowPairs]
      apply filter_drop_of_take_fails
      intro x hx
      have hx1 : x.1 ∈ ((getBuf st.buffer cid).timestamps ++ [now]).take k := by
        rw [← hzip] at hx
        rw [← zip_take] at hx
        obtain ⟨x1, x2⟩ := x
        exact (List.of_mem_zip hx).1
      have := htake x.1 hx1
      simp only [decide_eq_true_eq, decide_eq_false_iff_not, not_le]
      rw [max_time_window] at this hwmax
      linarith
  · show (windowMetricsP now w
      ((((getBuf st.buffer cid).timestamps ++ [now])).zip
        (((getBuf st.buffer cid).amounts ++ [td.transaction_amount])))).total_amount = _
    rw [hzip, total_amount_eq, total_amount_eq, windowPairs_append_keep _ hkeep,
      List.map_append, List.sum_append]
    simp

theorem metricsOfBuffer_of_ne {now : ℚ} {b : Buffer} (hne : b.timestamps ≠ []) :
    metricsOfBuffer now b =
      ⟨windowMetricsP now minute_window (b.timestamps.zip b.amounts),
       windowMetricsP now hour_window (b.timestamps.zip b.amounts),
       windowMetricsP now day_window (b.timestamps.zip b.amounts),
       windowMetricsP now week_window (b.timestamps.zip b.amounts)⟩ := by
  rw [metricsOfBuffer, if_neg (by rw [List.isEmpty_iff]; exact hne)]

theorem record_timestamps_ne_nil (now : ℚ) (cid : String) (td : Transaction)
    (st : MonitorState) :
    (getBuf (record_transaction now cid td st).buffer cid).timestamps ≠ [] := by
  rw [getBuf_record]
  split
  · exact dropOld_timestamps_ne_nil ⟨now, by simp, by rw [max_time_window]; linarith⟩
  · simp

theorem windowExcess_mono {thr : ℚ} (hthr : 0 < thr) {t1 t2 : ℚ} (h : t1 ≤ t2) :
    windowExcess t1 thr ≤ windowExcess t2 thr := by
  rw [windowExcess, windowExcess]
  by_cases h1 : t1 > thr
  · rw [if_pos h1, if_pos (lt_of_lt_of_le h1 h)]
    rw [rmin_eq, rmin_eq]
    have hd : t1 / thr ≤ t2 / thr := (div_le_div_iff_of_pos_right hthr).mpr h
    have := min_le_min hd (le_refl (2:ℚ))
    linarith
  · rw [if_neg h1]
    split
    · next h2 =>
      exact rminHalf_nonneg (div_nonneg (le_of_lt (lt_trans hthr h2)) hthr.le)
    · exact le_rfl

theorem volume_risk_mono {m1 m2 : VelocityMetrics}
    (h1 : m1.minute.total_amount ≤ m2.minute.total_amount)
    (h2 : m1.hour.total_amount ≤ m2.hour.total_amount)
    (h3 : m1.day.total_amount ≤ m2.day.total_amount) :
    calculate_volume_risk m1 ≤ calculate_volume_risk m2 := by
  rw [calculate_volume_risk_eq, calculate_volume_risk_eq]
  rw [rmin_eq, rmin_eq, rmax_eq, rmax_eq, rmax_eq, rmax_eq]
  refine min_le_min (max_le_max (max_le_max ?_ ?_) ?_) le_rfl
  · exact windowExcess_mono (by rw [max_amount_per_minute]; norm_num) h1
  · exact windowExcess_mono (by rw [max_amount_per_hour]; norm_num) h2
  · exact windowExcess_mono (by rw [max_amount_per_day]; norm_num) h3

theorem ite_le_ite_of_imp {c1 c2 : Prop} [Decidable c1] [Decidable c2] {v : ℚ}
    (himp : c1 → c2) (hv : 0 ≤ v) :
    (if c1 then v else 0) ≤ (if c2 then v else 0) := by
  by_cases h : c1
  · rw [if_pos h, if_pos (himp h)]
  · rw [if_neg h]
    exact ite_nonneg hv le_rfl

/-- C2 (counterexample): amounts 5000 ≤ 5001 with all other fields equal and
no history, yet the rapid-movement score for 5001 (0) is strictly below the
score for 5000 (0.2, from the round-amount rule) — rapid-movement risk is
not monotone in the amount. -/
theorem C2_counterexample :
    (5000 : ℚ) ≤ 5001 ∧
    (check_rapid_movement 0 { transaction_amount := 5001 } []).score <
      (check_rapid_movement 0 { transaction_amount := 5000 } []).score := by
  decide

/-- C2 (amended): for transactions identical except in amount with a1 ≤ a2
over the same well-formed ledger state, the volume risk after recording a2
is at least the volume risk after recording a1; and the rapid-movement score
is monotone provided the round-amount indicator (multiple of 1000 and at
least 5000) does not switch from on to off as the amount grows. -/
theorem C2_amended :
    (∀ (now : ℚ) (cid : String) (td : Transaction) (st : MonitorState) (a1 a2 : ℚ),
      (getBuf st.buffer cid).timestamps.length = (getBuf st.buffer cid).amounts.length →
      a1 ≤ a2 →
      calculate_volume_risk (calculate_velocity_metrics now
          (record_transaction now cid { td with transaction_amount := a1 } st).buffer cid) ≤
        calculate_volume_risk (calculate_velocity_metrics now
          (record_transaction now cid { td with transaction_amount := a2 } st).buffer cid)) ∧
    (∀ (now : ℚ) (td : Transaction) (hist : List HistEntry) (a1 a2 : ℚ),
      a1 ≤ a2 →
      ((roundThousand a1 && decide (a1 ≥ 5000)) = true →
        (roundThousand a2 && decide (a2 ≥ 5000)) = true) →
      (check_rapid_movement now { td with transaction_amount := a1 } hist).score ≤
        (check_rapid_movement now { td with transaction_amount := a2 } hist).score) := by
  constructor
  · intro now cid td st a1 a2 hlen hle
    have hm1 := @metricsOfBuffer_of_ne now _
      (record_timestamps_ne_nil now cid { td with transaction_amount := a1 } st)
    have hm2 := @metricsOfBuffer_of_ne now _
      (record_timestamps_ne_nil now cid { td with transaction_amount := a2 } st)
    rw [calculate_velocity_metrics, calculate_velocity_metrics, hm1, hm2]
    apply volume_risk_mono
    all_goals
      simp only
    · rw [total_after_record now cid _ st hlen minute_window (by decide) (by decide),
        total_after_record now cid _ st hlen minute_window (by decide) (by decide)]
      simpa using hle
    · rw [total_after_record now cid _ st hlen hour_window (by decide) (by decide),
        total_after_record now cid _ st hlen hour_window (by decide) (by decide)]
      simpa using hle
    · rw [total_after_record now cid _ st hlen day_window (by decide) (by decide),
        total_after_record now cid _ st hlen day_window (by decide) (by decide)]
      simpa using hle
  · intro now td hist a1 a2 hle himp
    simp only [check_rapid_movement]
    rw [rmin_eq, rmin_eq]
    refine min_le_min ?_ le_rfl
    have e1 : (if (decide ((a1 : ℚ) > rapid_movement_threshold)) = true then (3:ℚ)/10 else 0) ≤
        (if (decide ((a2 : ℚ) > rapid_movement_threshold)) = true then (3:ℚ)/10 else 0) :=
      ite_le_ite_of_imp
        (fun h => decide_eq_true (lt_of_lt_of_le (of_decide_eq_true h) hle)) (by norm_num)
    have e2 : (if ((roundThousand a1 && decide (a1 ≥ 5000)) = true) then (1:ℚ)/5 else 0) ≤
        (if ((roundThousand a2 && decide (a2 ≥ 5000)) = true) then (1:ℚ)/5 else 0) :=
      ite_le_ite_of_imp himp (by norm_num)
    exact add_le_add (add_le_add e1 e2) le_rfl

/-- C2 witness: the amended monotonicity applied to a fresh ledger with
amounts 1 and 2 (volume part) and amounts 6000 and 7000 (rapid part, both
round). -/
theorem C2_amended_witness :
    ((getBuf (⟨[], 0⟩ : MonitorState).buffer "c").timestamps.length =
      (getBuf (⟨[], 0⟩ : MonitorState).buffer "c").amounts.length) ∧
    ((1:ℚ) ≤ 2) ∧
    (calculate_volume_risk (calculate_velocity_metrics 50
        (record_transaction 50 "c" { transaction_amount := 1 } ⟨[], 0⟩).buffer "c") ≤
      calculate_volume_risk (calculate_velocity_metrics 50
        (record_transaction 50 "c" { transaction_amount := 2 } ⟨[], 0⟩).buffer "c")) ∧
    ((6000:ℚ) ≤ 7000) ∧
    ((check_rapid_movement 0 { transaction_amount := 6000 } []).score ≤
      (check_rapid_movement 0 { transaction_amount := 7000 } []).score) :=
  ⟨rfl, by norm_num,
    C2_amended.1 50 "c" {} ⟨[], 0⟩ 1 2 rfl (by norm_num),
    by norm_num,
    C2_amended.2 0 {} [] 6000 7000 (by norm_num) (fun _ => by decide)⟩

end RiskEngine
